import Mathlib

/-!
Shallow embedding of the grid-packing core of the `pyqtribbon` repository
(`ribbon/panel.py`): the class `RibbonGridLayoutManager` with its single
mutating operation `request_cells`, and the small slice of `RibbonPanel`
that the panel-level properties need (`addWidget` success path and
`setMaximumRows`).

Conventions, matching the source:
* the occupancy matrix `cells` is a list of rows, each row a list of `Bool`;
  `true` means the cell is free (`np.ones` initialisation), `false` occupied;
* `width` is the common length of the rows (the numpy array's `shape[1]`);
* Python `range(a - b + 1)` over possibly negative bounds is rendered as
  `a + 1 - b` in truncated natural subtraction, which agrees with Python's
  empty range when `b > a`;
* a raised exception is rendered as `none` / `Except.error`.
-/

inductive RibbonSpaceFindMode where
  | ColumnWise
  | RowWise
deriving DecidableEq, Repr

structure RibbonGridLayoutManager where
  rows : Nat
  cells : List (List Bool)
deriving DecidableEq, Repr

namespace RibbonGridLayoutManager

/-- `__init__(rows)`: `self.cells = np.ones((rows, 1), dtype=bool)`. -/
def init (rows : Nat) : RibbonGridLayoutManager :=
  ⟨rows, List.replicate rows [true]⟩

/-- The column count of the grid, numpy's `self.cells.shape[1]`. -/
def width (g : RibbonGridLayoutManager) : Nat :=
  (g.cells.headD []).length

/-- The value stored at cell `(i, j)`, `none` when out of bounds. -/
def cellVal (g : RibbonGridLayoutManager) (i j : Nat) : Option Bool :=
  (g.cells.get? i).bind fun row => row.get? j

/-- First-hit scan `for k in range(i, i + n): if f k is some v: return v`,
mirroring the Python `for` loops of `request_cells`. -/
def scanFrom {α : Type} (f : Nat → Option α) : Nat → Nat → Option α
  | _, 0 => none
  | i, n + 1 =>
    match f i with
    | some v => some v
    | none => scanFrom f (i + 1) n

/-- `self.cells[r : r + h, c : c + w].all()` at in-range indices. -/
def rectAllFree (cells : List (List Bool)) (r c h w : Nat) : Bool :=
  (List.range h).all fun i => (List.range w).all fun j =>
    (cells.getD (r + i) []).getD (c + j) false

/-- `self.cells[0, c:].all()`: row 0 is free from column `c` to the edge. -/
def rowTailFree (g : RibbonGridLayoutManager) (c : Nat) : Bool :=
  ((g.cells.getD 0 []).drop c).all id

/-- The ColumnWise nested scan: `for row in range(shape[0] - rowSpan + 1):
for col in range(shape[1] - colSpan + 1): ...` returning the first position
whose `rowSpan × colSpan` sub-rectangle is entirely free. -/
def findCW (g : RibbonGridLayoutManager) (rowSpan colSpan : Nat) : Option (Nat × Nat) :=
  scanFrom (fun r =>
      scanFrom (fun c =>
          if rectAllFree g.cells r c rowSpan colSpan then some (r, c) else none)
        0 (width g + 1 - colSpan))
    0 (g.cells.length + 1 - rowSpan)

/-- The RowWise scan: `for col in range(shape[1]): if cells[0, col:].all(): ...`. -/
def findRW (g : RibbonGridLayoutManager) : Option Nat :=
  scanFrom (fun c => if g.rowTailFree c then some c else none) 0 (width g)

/-- Set row entries `j` with `c ≤ j < c + w` to occupied; `j0` is the index
of the first entry of the list. -/
def markRow (c w : Nat) : Nat → List Bool → List Bool
  | _, [] => []
  | j, b :: rest => (if c ≤ j ∧ j < c + w then false else b) :: markRow c w (j + 1) rest

/-- `self.cells[r : r + h, c : c + w] = False`; `i0` is the index of the
first row of the list. -/
def markRect (r h c w : Nat) : Nat → List (List Bool) → List (List Bool)
  | _, [] => []
  | i, row :: rest =>
    (if r ≤ i ∧ i < r + h then markRow c w 0 row else row) :: markRect r h c w (i + 1) rest

/-- `np.append(self.cells, np.ones((self.rows, k), dtype=bool), axis=1)`:
append `k` all-free columns on the right. -/
def appendCols (cells : List (List Bool)) (k : Nat) : List (List Bool) :=
  cells.map (· ++ List.replicate k true)

/-- `self.cells[:, -1].all()`: the rightmost column is entirely free. -/
def lastColAllFree (g : RibbonGridLayoutManager) : Bool :=
  g.cells.all fun row => row.getD (width g - 1) false

/-- The shared overflow branch at the end of `request_cells`:
`cols = shape[1]; colSpan1 = colSpan; if cells[:, -1].all(): cols -= 1;
colSpan1 -= 1`, append `colSpan1` free columns, occupy
`cells[:rowSpan, cols : cols + colSpan]`, return `(0, cols)`. -/
def growCells (g : RibbonGridLayoutManager) (rowSpan colSpan : Nat) :
    (Nat × Nat) × RibbonGridLayoutManager :=
  let reuse := g.lastColAllFree
  let cols := if reuse then width g - 1 else width g
  let colSpan1 := if reuse then colSpan - 1 else colSpan
  let cells1 := appendCols g.cells colSpan1
  ((0, cols), ⟨g.rows, markRect 0 rowSpan cols colSpan 0 cells1⟩)

/-- The body of the RowWise loop once a column `c` with a free tail is found:
grow by the missing columns when `shape[1] - c < colSpan`, then
`cells[0, c:] = False` and return `(0, c)`. -/
def rowWisePlace (g : RibbonGridLayoutManager) (colSpan c : Nat) :
    (Nat × Nat) × RibbonGridLayoutManager :=
  let cells1 :=
    if width g - c < colSpan then appendCols g.cells (colSpan - (width g - c)) else g.cells
  let w1 := (cells1.headD []).length
  ((0, c), ⟨g.rows, markRect 0 1 c (w1 - c) 0 cells1⟩)

/-- `request_cells(rowSpan, colSpan, mode)`; `none` models the raised
`ValueError("RowSpan is too large")`. -/
def request_cells (g : RibbonGridLayoutManager) (rowSpan colSpan : Nat)
    (mode : RibbonSpaceFindMode) : Option ((Nat × Nat) × RibbonGridLayoutManager) :=
  if g.rows < rowSpan then none
  else some <| match mode with
    | .ColumnWise =>
      match findCW g rowSpan colSpan with
      | some (r, c) => ((r, c), ⟨g.rows, markRect r rowSpan c colSpan 0 g.cells⟩)
      | none => growCells g rowSpan colSpan
    | .RowWise =>
      match findRW g with
      | some c => rowWisePlace g colSpan c
      | none => growCells g rowSpan colSpan

end RibbonGridLayoutManager

/-- A request to the allocator: `(rowSpan, colSpan, mode)`. -/
abbrev Request := Nat × Nat × RibbonSpaceFindMode

/-- Run a sequence of `request_cells` calls, collecting the returned
placements; `none` as soon as one call fails. -/
def runTrace (g : RibbonGridLayoutManager) :
    List Request → Option (List (Nat × Nat) × RibbonGridLayoutManager)
  | [] => some ([], g)
  | (h, w, m) :: rest =>
    match g.request_cells h w m with
    | none => none
    | some ((r, c), g1) =>
      match runTrace g1 rest with
      | none => none
      | some (ps, gf) => some ((r, c) :: ps, gf)

/-- Membership of cell `(i, j)` in the `h × w` rectangle with top-left `pos`. -/
def inRect (pos : Nat × Nat) (h w : Nat) (i j : Nat) : Prop :=
  pos.1 ≤ i ∧ i < pos.1 + h ∧ pos.2 ≤ j ∧ j < pos.2 + w

instance (pos : Nat × Nat) (h w i j : Nat) : Decidable (inRect pos h w i j) := by
  unfold inRect; infer_instance

/-- The request `(h, w, m)` is valid for an allocator of `rows` rows:
`rowSpan ∈ [1, rows]` and `colSpan ≥ 1`. -/
def validReq (rows : Nat) (req : Request) : Prop :=
  1 ≤ req.1 ∧ req.1 ≤ rows ∧ 1 ≤ req.2.1

instance (rows : Nat) (req : Request) : Decidable (validReq rows req) := by
  unfold validReq; infer_instance

/-- Well-formedness of the grid: the matrix has exactly `rows` rows and is
rectangular, every row having length `width`. -/
def RibbonGridLayoutManager.WF (g : RibbonGridLayoutManager) : Prop :=
  g.cells.length = g.rows ∧ ∀ row ∈ g.cells, row.length = g.width

instance (g : RibbonGridLayoutManager) : Decidable g.WF := by
  unfold RibbonGridLayoutManager.WF; infer_instance

/-- The slice of `RibbonPanel` relevant to placement and row configuration:
`_maxRows` and the owned `_gridLayoutManager` (created with `maxRows` rows). -/
structure RibbonPanel where
  maxRows : Nat
  gridLayoutManager : RibbonGridLayoutManager
deriving DecidableEq, Repr

namespace RibbonPanel

/-- Panel construction: `self._maxRows = maxRows;
self._gridLayoutManager = RibbonGridLayoutManager(self._maxRows)`. -/
def create (maxRows : Nat) : RibbonPanel :=
  ⟨maxRows, RibbonGridLayoutManager.init maxRows⟩

/-- `addWidget`: `row, col = self._gridLayoutManager.request_cells(rowSpan,
colSpan, mode)` and place the widget there; a raise propagates as `none`. -/
def addWidget (p : RibbonPanel) (rowSpan colSpan : Nat) (mode : RibbonSpaceFindMode) :
    Option ((Nat × Nat) × RibbonPanel) :=
  match p.gridLayoutManager.request_cells rowSpan colSpan mode with
  | none => none
  | some ((r, c), g1) => some ((r, c), ⟨p.maxRows, g1⟩)

/-- The message of the `ValueError` raised by `setMaximumRows`. -/
def setMaximumRowsMessage : String :=
  "Set the maximum rows when creating the panel, because it is not possible to change it later after some widgets in the panel have been added."

/-- `setMaximumRows`: the body consists of a single unconditional `raise`. -/
def setMaximumRows (p : RibbonPanel) (_newMaxRows : Nat) : Except String RibbonPanel :=
  Except.error setMaximumRowsMessage

end RibbonPanel

/-! ### Basic lemmas about the scanning and marking primitives -/

namespace RibbonGridLayoutManager

theorem scanFrom_eq_none {α : Type} {f : Nat → Option α} {n i : Nat} :
    scanFrom f i n = none ↔ ∀ k, k < n → f (i + k) = none := by
  induction n generalizing i with
  | zero => simp [scanFrom]
  | succ n ih =>
    rw [scanFrom]
    cases hf : f i with
    | some v =>
      constructor
      · intro h; cases h
      · intro h
        have h0 := h 0 (Nat.succ_pos n)
        rw [Nat.add_zero, hf] at h0
        cases h0
    | none =>
      rw [ih]
      constructor
      · intro h k hk
        match k with
        | 0 => rw [Nat.add_zero]; exact hf
        | k' + 1 =>
          rw [show i + (k' + 1) = i + 1 + k' by omega]
          exact h k' (by omega)
      · intro h k hk
        rw [show i + 1 + k = i + (k + 1) by omega]
        exact h (k + 1) (by omega)

theorem scanFrom_eq_some {α : Type} {f : Nat → Option α} {n i : Nat} {v : α} :
    scanFrom f i n = some v ↔
      ∃ k, k < n ∧ f (i + k) = some v ∧ ∀ j, j < k → f (i + j) = none := by
  induction n generalizing i with
  | zero => simp [scanFrom]
  | succ n ih =>
    rw [scanFrom]
    cases hf : f i with
    | some w =>
      constructor
      · intro h
        exact ⟨0, Nat.succ_pos n, by rw [Nat.add_zero, hf]; exact h, by omega⟩
      · rintro ⟨k, hk, hfk, hmin⟩
        match k with
        | 0 => rw [Nat.add_zero, hf] at hfk; exact hfk
        | k' + 1 =>
          have h0 := hmin 0 (by omega)
          rw [Nat.add_zero, hf] at h0
          cases h0
    | none =>
      rw [ih]
      constructor
      · rintro ⟨k, hk, hfk, hmin⟩
        refine ⟨k + 1, by omega, ?_, ?_⟩
        · rw [show i + (k + 1) = i + 1 + k by omega]; exact hfk
        · intro j hj
          match j with
          | 0 => rw [Nat.add_zero]; exact hf
          | j' + 1 =>
            rw [show i + (j' + 1) = i + 1 + j' by omega]
            exact hmin j' (by omega)
      · rintro ⟨k, hk, hfk, hmin⟩
        match k with
        | 0 => rw [Nat.add_zero, hf] at hfk; cases hfk
        | k' + 1 =>
          refine ⟨k', by omega, ?_, ?_⟩
          · rw [show i + 1 + k' = i + (k' + 1) by omega]; exact hfk
          · intro j hj
            rw [show i + 1 + j = i + (j + 1) by omega]
            exact hmin (j + 1) (by omega)

theorem markRow_length (c w : Nat) :
    ∀ (j : Nat) (row : List Bool), (markRow c w j row).length = row.length
  | _, [] => rfl
  | j, b :: rest => by
    rw [markRow]
    simp [markRow_length c w (j + 1) rest]

theorem markRow_getElem? (c w : Nat) :
    ∀ (j0 : Nat) (row : List Bool) (j : Nat),
      (markRow c w j0 row)[j]? =
        row[j]?.map fun b => if c ≤ j0 + j ∧ j0 + j < c + w then false else b
  | j0, [], j => by simp [markRow]
  | j0, b :: rest, 0 => by simp [markRow]
  | j0, b :: rest, j + 1 => by
    rw [markRow]
    simp only [List.getElem?_cons_succ]
    rw [markRow_getElem? c w (j0 + 1) rest j,
      show j0 + 1 + j = j0 + (j + 1) by omega]

theorem markRect_length (r h c w : Nat) :
    ∀ (i : Nat) (cells : List (List Bool)), (markRect r h c w i cells).length = cells.length
  | _, [] => rfl
  | i, row :: rest => by
    rw [markRect]
    simp [markRect_length r h c w (i + 1) rest]

theorem markRect_getElem? (r h c w : Nat) :
    ∀ (i0 : Nat) (cells : List (List Bool)) (i : Nat),
      (markRect r h c w i0 cells)[i]? =
        cells[i]?.map fun row => if r ≤ i0 + i ∧ i0 + i < r + h then markRow c w 0 row else row
  | i0, [], i => by simp [markRect]
  | i0, row :: rest, 0 => by simp [markRect]
  | i0, row :: rest, i + 1 => by
    rw [markRect]
    simp only [List.getElem?_cons_succ]
    rw [markRect_getElem? r h c w (i0 + 1) rest i,
      show i0 + 1 + i = i0 + (i + 1) by omega]

/-- Past the marked band of rows, `markRect` is the identity. -/
theorem markRect_of_ge (r h c w : Nat) :
    ∀ (i : Nat) (cells : List (List Bool)), r + h ≤ i → markRect r h c w i cells = cells
  | _, [], _ => rfl
  | i, row :: rest, hge => by
    rw [markRect, if_neg (by omega), markRect_of_ge r h c w (i + 1) rest (by omega)]

theorem appendCols_length (cells : List (List Bool)) (k : Nat) :
    (appendCols cells k).length = cells.length := by
  simp [appendCols]

theorem appendCols_getElem? (cells : List (List Bool)) (k i : Nat) :
    (appendCols cells k)[i]? = cells[i]?.map (· ++ List.replicate k true) := by
  simp [appendCols]

end RibbonGridLayoutManager

namespace RibbonGridLayoutManager

theorem cellVal_def (g : RibbonGridLayoutManager) (i j : Nat) :
    g.cellVal i j = g.cells[i]?.bind fun row => row[j]? := by
  simp [cellVal, List.get?_eq_getElem?]

theorem cellVal_mk (R : Nat) (cells : List (List Bool)) (i j : Nat) :
    cellVal ⟨R, cells⟩ i j = cells[i]?.bind fun row => row[j]? :=
  cellVal_def ⟨R, cells⟩ i j

/-- Reading through `getD` with default `false` agrees with `cellVal` on the
value `true`. -/
theorem getD_true_iff (l : List Bool) (n : Nat) :
    l.getD n false = true ↔ l[n]? = some true := by
  rw [List.getD_eq_getD_get?, List.get?_eq_getElem?]
  cases h : l[n]? with
  | none => simp
  | some b => simp

theorem cellVal_true_iff (g : RibbonGridLayoutManager) (i j : Nat) :
    g.cellVal i j = some true ↔ (g.cells.getD i []).getD j false = true := by
  rw [cellVal_def]
  simp only [List.getD_eq_getD_get?, List.get?_eq_getElem?]
  cases h : g.cells[i]? with
  | none => simp
  | some row =>
    simp only [Option.getD_some, Option.some_bind]
    cases hb : row[j]? <;> simp

theorem rectAllFree_iff (cells : List (List Bool)) (r c h w : Nat) :
    rectAllFree cells r c h w = true ↔
      ∀ i j, i < h → j < w → (cells.getD (r + i) []).getD (c + j) false = true := by
  simp only [rectAllFree, List.all_eq_true, List.mem_range]
  constructor
  · intro hall i j hi hj; exact hall i hi j hj
  · intro hall i hi j hj; exact hall i j hi hj

theorem rectAllFree_cellVal {cells : List (List Bool)} {r c h w : Nat} {R : Nat}
    (hfree : rectAllFree cells r c h w = true) :
    ∀ i j, i < h → j < w → cellVal ⟨R, cells⟩ (r + i) (c + j) = some true := by
  intro i j hi hj
  rw [cellVal_true_iff]
  exact (rectAllFree_iff cells r c h w).mp hfree i j hi hj

theorem cellVal_markRect (R : Nat) (cells : List (List Bool)) (r h c w i j : Nat) :
    cellVal ⟨R, markRect r h c w 0 cells⟩ i j =
      (cellVal ⟨R, cells⟩ i j).map
        fun b => if r ≤ i ∧ i < r + h ∧ c ≤ j ∧ j < c + w then false else b := by
  rw [cellVal_mk, cellVal_mk, markRect_getElem?]
  cases hrow : cells[i]? with
  | none => simp
  | some row =>
    simp only [Option.map_some', Option.some_bind]
    by_cases hi : r ≤ 0 + i ∧ 0 + i < r + h
    · rw [if_pos hi, markRow_getElem?]
      cases hb : row[j]? with
      | none => simp
      | some b =>
        simp only [Option.map_some']
        congr 1
        by_cases hj : c ≤ 0 + j ∧ 0 + j < c + w
        · rw [if_pos hj, if_pos ⟨by omega, by omega, by omega, by omega⟩]
        · rw [if_neg hj, if_neg]
          intro hc
          exact hj ⟨by omega, by omega⟩
    · rw [if_neg hi]
      cases hb : row[j]? with
      | none => simp
      | some b =>
        simp only [Option.map_some']
        rw [if_neg]
        intro hc
        exact hi ⟨by omega, by omega⟩

end RibbonGridLayoutManager

namespace RibbonGridLayoutManager

/-- Cells that exist before the append keep their value. -/
theorem cellVal_appendCols_of_lt (R : Nat) {cells : List (List Bool)} {i j : Nat}
    {row : List Bool} (hrow : cells[i]? = some row) (hj : j < row.length) (k : Nat) :
    cellVal ⟨R, appendCols cells k⟩ i j = cellVal ⟨R, cells⟩ i j := by
  rw [cellVal_mk, cellVal_mk, appendCols_getElem?, hrow]
  simp only [Option.map_some', Option.some_bind]
  rw [List.getElem?_append]
  rw [if_pos hj]

/-- Appended cells are free. -/
theorem cellVal_appendCols_of_ge (R : Nat) {cells : List (List Bool)} {i j : Nat}
    {row : List Bool} (hrow : cells[i]? = some row) (hj : row.length ≤ j)
    {k : Nat} (hjk : j < row.length + k) :
    cellVal ⟨R, appendCols cells k⟩ i j = some true := by
  rw [cellVal_mk, appendCols_getElem?, hrow]
  simp only [Option.map_some', Option.some_bind]
  rw [List.getElem?_append_right hj, List.getElem?_replicate, if_pos (by omega)]

/-- Values read after an append come either from the old grid or from the
appended free region. -/
theorem cellVal_appendCols_cases (R : Nat) (cells : List (List Bool)) (k i j : Nat) {b : Bool}
    (hval : cellVal ⟨R, appendCols cells k⟩ i j = some b) :
    cellVal ⟨R, cells⟩ i j = some b ∨
      (b = true ∧ ∃ row, cells[i]? = some row ∧ row.length ≤ j ∧ j < row.length + k) := by
  rw [cellVal_mk, appendCols_getElem?] at hval
  cases hrow : cells[i]? with
  | none => rw [hrow] at hval; cases hval
  | some row =>
    rw [hrow] at hval
    simp only [Option.map_some', Option.some_bind] at hval
    by_cases hj : j < row.length
    · left
      rw [cellVal_mk, hrow]
      simp only [Option.some_bind]
      rw [List.getElem?_append, if_pos hj] at hval
      exact hval
    · right
      rw [List.getElem?_append_right (by omega), List.getElem?_replicate] at hval
      by_cases hjk : j - row.length < k
      · rw [if_pos hjk] at hval
        cases hval
        exact ⟨rfl, row, rfl, by omega, by omega⟩
      · rw [if_neg hjk] at hval
        cases hval

/-- What a successful ColumnWise scan guarantees: the position is in range,
its rectangle is entirely free, and it is the row-major-first such position. -/
theorem findCW_spec {g : RibbonGridLayoutManager} {rowSpan colSpan r c : Nat}
    (hfind : g.findCW rowSpan colSpan = some (r, c)) :
    r + rowSpan ≤ g.cells.length ∧ c + colSpan ≤ g.width ∧
      rectAllFree g.cells r c rowSpan colSpan = true ∧
      ∀ r' c', r' + rowSpan ≤ g.cells.length → c' + colSpan ≤ g.width →
        (r' < r ∨ (r' = r ∧ c' < c)) → rectAllFree g.cells r' c' rowSpan colSpan = false := by
  rw [findCW, scanFrom_eq_some] at hfind
  obtain ⟨k, hk, hkfind, hkmin⟩ := hfind
  rw [Nat.zero_add, scanFrom_eq_some] at hkfind
  obtain ⟨l, hl, hlfind, hlmin⟩ := hkfind
  rw [Nat.zero_add] at hlfind
  by_cases hfree : rectAllFree g.cells k l rowSpan colSpan = true
  · rw [if_pos hfree] at hlfind
    cases hlfind
    refine ⟨by omega, by omega, hfree, ?_⟩
    intro r' c' hr' hc' hlex
    rcases hlex with hlt | ⟨rfl, hlt⟩
    · have hnone := hkmin r' hlt
      rw [Nat.zero_add, scanFrom_eq_none] at hnone
      have h2 := hnone c' (by omega)
      rw [Nat.zero_add] at h2
      by_cases hfree' : rectAllFree g.cells r' c' rowSpan colSpan = true
      · rw [if_pos hfree'] at h2; cases h2
      · simpa using hfree'
    · have h2 := hlmin c' hlt
      rw [Nat.zero_add] at h2
      by_cases hfree' : rectAllFree g.cells r' c' rowSpan colSpan = true
      · rw [if_pos hfree'] at h2; cases h2
      · simpa using hfree'
  · rw [if_neg hfree] at hlfind; cases hlfind

/-- A failed ColumnWise scan means no in-range position has a free rectangle. -/
theorem findCW_none {g : RibbonGridLayoutManager} {rowSpan colSpan : Nat}
    (hfind : g.findCW rowSpan colSpan = none) :
    ∀ r c, r + rowSpan ≤ g.cells.length → c + colSpan ≤ g.width →
      rectAllFree g.cells r c rowSpan colSpan = false := by
  intro r c hr hc
  rw [findCW, scanFrom_eq_none] at hfind
  have := hfind r (by omega)
  rw [Nat.zero_add, scanFrom_eq_none] at this
  have := this c (by omega)
  rw [Nat.zero_add] at this
  by_cases hfree : rectAllFree g.cells r c rowSpan colSpan = true
  · rw [if_pos hfree] at this; cases this
  · exact Bool.not_eq_true _ ▸ Bool.of_not_eq_true hfree

/-- The converse: the row-major-first in-range free position is what the
ColumnWise scan returns. -/
theorem findCW_some_of {g : RibbonGridLayoutManager} {rowSpan colSpan r c : Nat}
    (hr : r + rowSpan ≤ g.cells.length) (hc : c + colSpan ≤ g.width)
    (hfree : rectAllFree g.cells r c rowSpan colSpan = true)
    (hmin : ∀ r' c', r' + rowSpan ≤ g.cells.length → c' + colSpan ≤ g.width →
      (r' < r ∨ (r' = r ∧ c' < c)) → rectAllFree g.cells r' c' rowSpan colSpan = false) :
    g.findCW rowSpan colSpan = some (r, c) := by
  rw [findCW, scanFrom_eq_some]
  refine ⟨r, by omega, ?_, ?_⟩
  · rw [Nat.zero_add, scanFrom_eq_some]
    refine ⟨c, by omega, ?_, ?_⟩
    · rw [Nat.zero_add, if_pos hfree]
    · intro j hj
      rw [Nat.zero_add, if_neg]
      rw [hmin r j (by omega) (by omega) (Or.inr ⟨rfl, hj⟩)]
      simp
  · intro j hj
    rw [Nat.zero_add, scanFrom_eq_none]
    intro l hl
    rw [Nat.zero_add, if_neg]
    rw [hmin j l (by omega) (by omega) (Or.inl hj)]
    simp

theorem rowTailFree_iff (g : RibbonGridLayoutManager) (c : Nat) :
    g.rowTailFree c = true ↔
      ∀ j, c ≤ j → j < (g.cells.getD 0 []).length → (g.cells.getD 0 [])[j]? = some true := by
  rw [rowTailFree, List.all_eq_true]
  constructor
  · intro hall j hcj hjl
    have hget : (List.drop c (g.cells.getD 0 []))[j - c]? = (g.cells.getD 0 [])[j]? := by
      rw [List.getElem?_drop, show c + (j - c) = j by omega]
    have hlt : j - c < (List.drop c (g.cells.getD 0 [])).length := by
      rw [List.length_drop]; omega
    obtain ⟨b, hb⟩ : ∃ b, (List.drop c (g.cells.getD 0 []))[j - c]? = some b := by
      cases hx : (List.drop c (g.cells.getD 0 []))[j - c]? with
      | none =>
        exfalso
        have hsome := List.getElem?_eq_getElem hlt
        rw [hx] at hsome
        cases hsome
      | some b => exact ⟨b, rfl⟩
    have hmem : b ∈ List.drop c (g.cells.getD 0 []) := List.getElem?_mem hb
    have hbtrue := hall b hmem
    rw [hget] at hb
    rw [hb]
    simpa using hbtrue
  · intro hp x hx
    obtain ⟨k, hk⟩ := List.mem_iff_getElem?.mp hx
    rw [List.getElem?_drop] at hk
    have hlen : c + k < (g.cells.getD 0 []).length := by
      by_contra hge
      rw [List.getElem?_eq_none (by omega)] at hk
      cases hk
    have hval := hp (c + k) (by omega) hlen
    rw [hval] at hk
    cases hk
    rfl

end RibbonGridLayoutManager

namespace RibbonGridLayoutManager

/-- The in-grid scan of `request_cells` found nothing, so the call reaches
the shared grow-and-append branch. -/
def overflowed (g : RibbonGridLayoutManager) (rowSpan colSpan : Nat)
    (m : RibbonSpaceFindMode) : Prop :=
  match m with
  | .ColumnWise => g.findCW rowSpan colSpan = none
  | .RowWise => g.findRW = none

instance (g : RibbonGridLayoutManager) (rowSpan colSpan : Nat) (m : RibbonSpaceFindMode) :
    Decidable (g.overflowed rowSpan colSpan m) := by
  unfold overflowed; cases m <;> infer_instance

theorem findRW_spec {g : RibbonGridLayoutManager} {c : Nat} (hfind : g.findRW = some c) :
    c < g.width ∧ g.rowTailFree c = true ∧ ∀ c', c' < c → g.rowTailFree c' = false := by
  rw [findRW, scanFrom_eq_some] at hfind
  obtain ⟨k, hk, hkfind, hkmin⟩ := hfind
  rw [Nat.zero_add] at hkfind
  by_cases hfree : g.rowTailFree k = true
  · rw [if_pos hfree] at hkfind
    cases hkfind
    refine ⟨hk, hfree, ?_⟩
    intro c' hc'
    have h2 := hkmin c' hc'
    rw [Nat.zero_add] at h2
    by_cases hfree' : g.rowTailFree c' = true
    · rw [if_pos hfree'] at h2; cases h2
    · simpa using hfree'
  · rw [if_neg hfree] at hkfind; cases hkfind

theorem findRW_none {g : RibbonGridLayoutManager} (hfind : g.findRW = none) :
    ∀ c, c < g.width → g.rowTailFree c = false := by
  intro c hc
  rw [findRW, scanFrom_eq_none] at hfind
  have h2 := hfind c hc
  rw [Nat.zero_add] at h2
  by_cases hfree : g.rowTailFree c = true
  · rw [if_pos hfree] at h2; cases h2
  · simpa using hfree

theorem lastColAllFree_iff (g : RibbonGridLayoutManager) :
    g.lastColAllFree = true ↔ ∀ row ∈ g.cells, row.getD (g.width - 1) false = true := by
  rw [lastColAllFree, List.all_eq_true]

theorem headD_eq_getElem? {α : Type} (l : List α) (d : α) : l.headD d = l[0]?.getD d := by
  cases l <;> simp

theorem width_mk (R : Nat) (cells : List (List Bool)) :
    width ⟨R, cells⟩ = (cells[0]?.getD []).length := by
  rw [width]
  show (cells.headD []).length = _
  rw [headD_eq_getElem?]

theorem width_markRect (R r h c w : Nat) (cells : List (List Bool)) :
    width ⟨R, markRect r h c w 0 cells⟩ = width ⟨R, cells⟩ := by
  rw [width_mk, width_mk, markRect_getElem?]
  cases h0 : cells[0]? with
  | none => rfl
  | some row =>
    simp only [Option.map_some', Option.getD_some]
    by_cases hc : r ≤ 0 + 0 ∧ 0 + 0 < r + h
    · rw [if_pos hc, markRow_length]
    · rw [if_neg hc]

theorem width_appendCols (R : Nat) {cells : List (List Bool)} (k : Nat)
    (hne : 0 < cells.length) :
    width ⟨R, appendCols cells k⟩ = width ⟨R, cells⟩ + k := by
  rw [width_mk, width_mk, appendCols_getElem?]
  cases h0 : cells[0]? with
  | none =>
    exfalso
    have := List.getElem?_eq_getElem hne
    rw [h0] at this
    cases this
  | some row => simp

theorem WF_markRect {g : RibbonGridLayoutManager} (hWF : g.WF) (r h c w : Nat) :
    WF ⟨g.rows, markRect r h c w 0 g.cells⟩ := by
  obtain ⟨hlen, hrect⟩ := hWF
  constructor
  · show (markRect r h c w 0 g.cells).length = g.rows
    rw [markRect_length]; exact hlen
  · intro row hrow
    obtain ⟨i, hi⟩ := List.mem_iff_getElem?.mp hrow
    rw [markRect_getElem?] at hi
    cases h0 : g.cells[i]? with
    | none => rw [h0] at hi; cases hi
    | some row0 =>
      rw [h0] at hi
      simp only [Option.map_some', Option.some.injEq] at hi
      have hmem : row0 ∈ g.cells := List.getElem?_mem h0
      have hlen0 := hrect row0 hmem
      rw [show width ⟨g.rows, markRect r h c w 0 g.cells⟩ = g.width from
        width_markRect g.rows r h c w g.cells]
      rw [← hi]
      by_cases hc : r ≤ 0 + i ∧ 0 + i < r + h
      · rw [if_pos hc, markRow_length]; exact hlen0
      · rw [if_neg hc]; exact hlen0

theorem WF_appendCols {g : RibbonGridLayoutManager} (hWF : g.WF) (hrows : 0 < g.rows)
    (k : Nat) : WF ⟨g.rows, appendCols g.cells k⟩ := by
  obtain ⟨hlen, hrect⟩ := hWF
  constructor
  · show (appendCols g.cells k).length = g.rows
    rw [appendCols_length]; exact hlen
  · intro row hrow
    obtain ⟨i, hi⟩ := List.mem_iff_getElem?.mp hrow
    rw [appendCols_getElem?] at hi
    cases h0 : g.cells[i]? with
    | none => rw [h0] at hi; cases hi
    | some row0 =>
      rw [h0] at hi
      simp only [Option.map_some', Option.some.injEq] at hi
      have hmem : row0 ∈ g.cells := List.getElem?_mem h0
      have hlen0 := hrect row0 hmem
      rw [show width ⟨g.rows, appendCols g.cells k⟩ = g.width + k from
        width_appendCols g.rows k (by omega)]
      rw [← hi]
      simp [hlen0]

/-- Case analysis of a successful `request_cells` call. -/
theorem request_cells_cases {g : RibbonGridLayoutManager} {h w : Nat}
    {m : RibbonSpaceFindMode} {r c : Nat} {g' : RibbonGridLayoutManager}
    (hreq : g.request_cells h w m = some ((r, c), g')) :
    h ≤ g.rows ∧
      ((m = .ColumnWise ∧ g.findCW h w = some (r, c) ∧
          g' = ⟨g.rows, markRect r h c w 0 g.cells⟩) ∨
       (m = .RowWise ∧ g.findRW = some c ∧ g.rowWisePlace w c = ((r, c), g')) ∨
       (g.overflowed h w m ∧ g.growCells h w = ((r, c), g'))) := by
  rw [request_cells.eq_def] at hreq
  by_cases hrows : g.rows < h
  · rw [if_pos hrows] at hreq; cases hreq
  rw [if_neg hrows] at hreq
  refine ⟨by omega, ?_⟩
  cases m with
  | ColumnWise =>
    cases hfind : g.findCW h w with
    | some rc =>
      obtain ⟨r0, c0⟩ := rc
      rw [hfind] at hreq
      cases hreq
      exact Or.inl ⟨rfl, rfl, rfl⟩
    | none =>
      rw [hfind] at hreq
      cases hreq
      exact Or.inr (Or.inr ⟨hfind, rfl⟩)
  | RowWise =>
    cases hfind : g.findRW with
    | some c0 =>
      rw [hfind] at hreq
      cases hreq
      exact Or.inr (Or.inl ⟨rfl, rfl, rfl⟩)
    | none =>
      rw [hfind] at hreq
      cases hreq
      exact Or.inr (Or.inr ⟨hfind, rfl⟩)

end RibbonGridLayoutManager

namespace RibbonGridLayoutManager

theorem growCells_eq (g : RibbonGridLayoutManager) (h w : Nat) :
    g.growCells h w =
      ((0, if g.lastColAllFree then g.width - 1 else g.width),
        ⟨g.rows, markRect 0 h (if g.lastColAllFree then g.width - 1 else g.width) w 0
          (appendCols g.cells (if g.lastColAllFree then w - 1 else w))⟩) := rfl

theorem rowWisePlace_eq (g : RibbonGridLayoutManager) (w c : Nat) :
    g.rowWisePlace w c =
      ((0, c), ⟨g.rows, markRect 0 1 c
        (((if g.width - c < w then appendCols g.cells (w - (g.width - c)) else g.cells).headD
            []).length - c) 0
        (if g.width - c < w then appendCols g.cells (w - (g.width - c)) else g.cells)⟩) := rfl

theorem cellVal_false_markRect {R : Nat} {cells : List (List Bool)} {i j : Nat}
    (r h c w : Nat) (h1 : cellVal ⟨R, cells⟩ i j = some false) :
    cellVal ⟨R, markRect r h c w 0 cells⟩ i j = some false := by
  rw [cellVal_markRect, h1]
  simp

theorem cellVal_false_appendCols {R : Nat} {cells : List (List Bool)} {i j : Nat}
    (k : Nat) (h1 : cellVal ⟨R, cells⟩ i j = some false) :
    cellVal ⟨R, appendCols cells k⟩ i j = some false := by
  rw [cellVal_mk] at h1
  cases hrow : cells[i]? with
  | none => rw [hrow] at h1; cases h1
  | some row =>
    rw [hrow] at h1
    simp only [Option.some_bind] at h1
    have hj : j < row.length := by
      obtain ⟨hlt, -⟩ := List.getElem?_eq_some.mp h1
      exact hlt
    rw [cellVal_appendCols_of_lt R hrow hj k, cellVal_mk, hrow]
    simpa using h1

/-- Occupied cells stay occupied across any successful `request_cells` call:
the operation never frees a cell. -/
theorem request_cells_mono {g : RibbonGridLayoutManager} {h w : Nat}
    {m : RibbonSpaceFindMode} {r c : Nat} {g' : RibbonGridLayoutManager}
    (hreq : g.request_cells h w m = some ((r, c), g')) :
    ∀ i j, g.cellVal i j = some false → g'.cellVal i j = some false := by
  intro i j hocc
  obtain ⟨-, hbr⟩ := request_cells_cases hreq
  rcases hbr with ⟨-, -, rfl⟩ | ⟨-, -, hplace⟩ | ⟨-, hgrow⟩
  · exact cellVal_false_markRect r h c w hocc
  · have hg' : g' = (g.rowWisePlace w c).2 := by rw [hplace]
    rw [hg', rowWisePlace_eq]
    by_cases hb : g.width - c < w
    · rw [if_pos hb]
      exact cellVal_false_markRect _ _ _ _ (cellVal_false_appendCols _ hocc)
    · rw [if_neg hb]
      exact cellVal_false_markRect _ _ _ _ hocc
  · have hg' : g' = (g.growCells h w).2 := by rw [hgrow]
    rw [hg', growCells_eq]
    exact cellVal_false_markRect _ _ _ _ (cellVal_false_appendCols _ hocc)

end RibbonGridLayoutManager

namespace RibbonGridLayoutManager

theorem rectAllFree_cellVal_g {g : RibbonGridLayoutManager} {r c h w : Nat}
    (hfree : rectAllFree g.cells r c h w = true) :
    ∀ i j, i < h → j < w → g.cellVal (r + i) (c + j) = some true := by
  intro i j hi hj
  rw [cellVal_true_iff]
  exact (rectAllFree_iff g.cells r c h w).mp hfree i j hi hj

/-- With a positive row count, row 0 exists and has length `width`. -/
theorem row0_some {g : RibbonGridLayoutManager} (hWF : g.WF) (hrows : 0 < g.rows) :
    g.cells[0]? = some (g.cells.getD 0 []) ∧ (g.cells.getD 0 []).length = g.width := by
  have hlen : 0 < g.cells.length := by rw [hWF.1]; exact hrows
  have h0 : g.cells[0]? = some (g.cells.get ⟨0, hlen⟩) := List.getElem?_eq_getElem hlen
  have hgd : g.cells.getD 0 [] = g.cells.get ⟨0, hlen⟩ := List.getD_eq_getElem g.cells [] hlen
  refine ⟨by rw [hgd]; exact h0, ?_⟩
  rw [hgd]
  exact hWF.2 _ (List.getElem_mem hlen)

theorem cellVal_isSome {g : RibbonGridLayoutManager} (hWF : g.WF) {i j : Nat}
    (hi : i < g.cells.length) (hj : j < g.width) : ∃ b, g.cellVal i j = some b := by
  have hrow : g.cells[i]? = some (g.cells.get ⟨i, hi⟩) := List.getElem?_eq_getElem hi
  have hlen : (g.cells.get ⟨i, hi⟩).length = g.width := hWF.2 _ (List.getElem_mem hi)
  have hjlt : j < (g.cells.get ⟨i, hi⟩).length := by omega
  refine ⟨(g.cells.get ⟨i, hi⟩).get ⟨j, hjlt⟩, ?_⟩
  rw [cellVal_def, hrow]
  simp only [Option.some_bind]
  exact List.getElem?_eq_getElem hjlt

theorem cellVal_markRect_false {R : Nat} {cells : List (List Bool)} {r h c w i j : Nat}
    (hcond : r ≤ i ∧ i < r + h ∧ c ≤ j ∧ j < c + w)
    (hsome : ∃ b, cellVal ⟨R, cells⟩ i j = some b) :
    cellVal ⟨R, markRect r h c w 0 cells⟩ i j = some false := by
  obtain ⟨b, hb⟩ := hsome
  rw [cellVal_markRect, hb]
  simp only [Option.map_some']
  rw [if_pos hcond]

theorem cellVal_replicate (R i j : Nat) :
    cellVal ⟨R, List.replicate R [true]⟩ i j =
      if i < R ∧ j = 0 then some true else none := by
  rw [cellVal_mk, List.getElem?_replicate]
  by_cases hi : i < R
  · rw [if_pos hi]
    simp only [Option.some_bind]
    match j with
    | 0 => rw [if_pos ⟨hi, rfl⟩]; rfl
    | j' + 1 => rw [if_neg (by omega)]; rfl
  · rw [if_neg hi, if_neg (by omega)]
    rfl

theorem width_init {rows : Nat} (hrows : 0 < rows) : (init rows).width = 1 := by
  match rows, hrows with
  | n + 1, _ => rw [init, width, List.replicate_succ]; rfl

theorem WF_init (rows : Nat) : (init rows).WF := by
  constructor
  · simp [init]
  · intro row hrow
    rw [init] at hrow
    have := List.eq_of_mem_replicate hrow
    subst this
    cases rows with
    | zero => cases hrow
    | succ n => rw [width_init (Nat.succ_pos n)]; rfl

/-- Reachability invariant for the allocator: well-formed, positive
dimensions, and either the top-right cell is occupied or the grid is still
the untouched initial one. -/
def Inv (g : RibbonGridLayoutManager) : Prop :=
  g.WF ∧ 0 < g.rows ∧ 0 < g.width ∧
    (g.cellVal 0 (g.width - 1) = some false ∨ g.cells = List.replicate g.rows [true])

theorem Inv_init {rows : Nat} (hrows : 0 < rows) : (init rows).Inv :=
  ⟨WF_init rows, hrows, by rw [width_init hrows]; omega, Or.inr rfl⟩

/-- Shape preservation of a successful call: well-formedness is kept, the
row count is unchanged, and the column count never decreases. -/
theorem request_cells_WF {g : RibbonGridLayoutManager} {h w : Nat}
    {m : RibbonSpaceFindMode} {r c : Nat} {g' : RibbonGridLayoutManager}
    (hWF : g.WF) (hrows : 0 < g.rows)
    (hreq : g.request_cells h w m = some ((r, c), g')) :
    g'.WF ∧ g'.rows = g.rows ∧ g.width ≤ g'.width := by
  obtain ⟨-, hbr⟩ := request_cells_cases hreq
  rcases hbr with ⟨-, -, rfl⟩ | ⟨-, -, hplace⟩ | ⟨-, hgrow⟩
  · refine ⟨WF_markRect hWF r h c w, rfl, ?_⟩
    rw [width_markRect]
  · have hg' : g' = (g.rowWisePlace w c).2 := by rw [hplace]
    subst hg'
    rw [rowWisePlace_eq]
    by_cases hb : g.width - c < w
    · rw [if_pos hb]
      have hWF1 : WF ⟨g.rows, appendCols g.cells (w - (g.width - c))⟩ :=
        WF_appendCols hWF hrows _
      have hw1 : width ⟨g.rows, appendCols g.cells (w - (g.width - c))⟩ =
          g.width + (w - (g.width - c)) := width_appendCols g.rows _ (by rw [hWF.1]; omega)
      refine ⟨WF_markRect hWF1 0 1 c _, rfl, ?_⟩
      rw [show width (⟨g.rows, markRect 0 1 c
          (((appendCols g.cells (w - (g.width - c))).headD []).length - c) 0
          (appendCols g.cells (w - (g.width - c)))⟩ : RibbonGridLayoutManager) =
        width ⟨g.rows, appendCols g.cells (w - (g.width - c))⟩ from width_markRect _ _ _ _ _ _]
      omega
    · rw [if_neg hb]
      refine ⟨WF_markRect hWF 0 1 c _, rfl, ?_⟩
      rw [show width (⟨g.rows, markRect 0 1 c ((g.cells.headD []).length - c) 0 g.cells⟩ :
        RibbonGridLayoutManager) = width ⟨g.rows, g.cells⟩ from width_markRect _ _ _ _ _ _]
  · have hg' : g' = (g.growCells h w).2 := by rw [hgrow]
    subst hg'
    rw [growCells_eq]
    have hWF1 : WF ⟨g.rows, appendCols g.cells (if g.lastColAllFree then w - 1 else w)⟩ :=
      WF_appendCols hWF hrows _
    have hw1 : width ⟨g.rows, appendCols g.cells (if g.lastColAllFree then w - 1 else w)⟩ =
        g.width + (if g.lastColAllFree then w - 1 else w) :=
      width_appendCols g.rows _ (by rw [hWF.1]; omega)
    refine ⟨WF_markRect hWF1 0 h _ w, rfl, ?_⟩
    rw [show width (⟨g.rows, markRect 0 h (if g.lastColAllFree then g.width - 1 else g.width) w 0
        (appendCols g.cells (if g.lastColAllFree then w - 1 else w))⟩ :
        RibbonGridLayoutManager) =
      width ⟨g.rows, appendCols g.cells (if g.lastColAllFree then w - 1 else w)⟩ from
      width_markRect _ _ _ _ _ _]
    omega

end RibbonGridLayoutManager

namespace RibbonGridLayoutManager

theorem width_of_replicate {g : RibbonGridLayoutManager} (hrows : 0 < g.rows)
    (hcells : g.cells = List.replicate g.rows [true]) : g.width = 1 := by
  obtain ⟨n, hn⟩ : ∃ n, g.rows = n + 1 := ⟨g.rows - 1, by omega⟩
  rw [width, hcells, hn, List.replicate_succ]
  rfl

theorem rectAllFree_replicate {g : RibbonGridLayoutManager} {h : Nat}
    (hcells : g.cells = List.replicate g.rows [true]) (hhr : h ≤ g.rows) :
    rectAllFree g.cells 0 0 h 1 = true := by
  rw [rectAllFree_iff]
  intro i j hi hj
  have hj0 : j = 0 := by omega
  subst hj0
  rw [hcells]
  have hgd : (List.replicate g.rows [true]).getD (0 + i) [] = [true] := by
    rw [List.getD_eq_getElem _ _ (by rw [List.length_replicate]; omega)]
    exact List.getElem_replicate [true] _
  rw [hgd]
  rfl

/-- Every cell of the returned rectangle was free (or beyond the grid's
edge) just before the call, provided RowWise calls span one row. -/
theorem step_rect_free {g : RibbonGridLayoutManager} {h w : Nat} {m : RibbonSpaceFindMode}
    {r c : Nat} {g' : RibbonGridLayoutManager} (hInv : g.Inv)
    (hm : m = .RowWise → h = 1)
    (hreq : g.request_cells h w m = some ((r, c), g')) :
    ∀ i j, inRect (r, c) h w i j → g.cellVal i j ≠ some false := by
  obtain ⟨hWF, hrowsPos, hwPos, htail⟩ := hInv
  obtain ⟨hh, hbr⟩ := request_cells_cases hreq
  intro i j hij hocc
  obtain ⟨hri, hir, hcj, hjc⟩ := hij
  rcases hbr with ⟨-, hfind, -⟩ | ⟨hmEq, hfind, hplace⟩ | ⟨hover, hgrow⟩
  · obtain ⟨hrb, hcb, hfree, -⟩ := findCW_spec hfind
    have hval := rectAllFree_cellVal_g hfree (i - r) (j - c) (by omega) (by omega)
    rw [show r + (i - r) = i by omega, show c + (j - c) = j by omega] at hval
    rw [hval] at hocc
    cases hocc
  · have h1 : h = 1 := hm hmEq
    subst h1
    rw [rowWisePlace_eq] at hplace
    injection hplace with h1 h2
    injection h1 with hr hc
    obtain ⟨hcw, htf, -⟩ := findRW_spec hfind
    obtain ⟨h0some, h0len⟩ := row0_some hWF hrowsPos
    have hi0 : i = 0 := by omega
    subst hi0
    rw [cellVal_def, h0some] at hocc
    simp only [Option.some_bind] at hocc
    by_cases hjW : j < g.width
    · have hval := (rowTailFree_iff g c).mp htf j (by omega) (by omega)
      rw [hval] at hocc
      cases hocc
    · rw [List.getElem?_eq_none (by omega)] at hocc
      cases hocc
  · rw [growCells_eq] at hgrow
    injection hgrow with h1 h2
    injection h1 with hr hc
    have hilen : i < g.cells.length := by rw [hWF.1]; omega
    have hrowi : g.cells[i]? = some (g.cells.get ⟨i, hilen⟩) := List.getElem?_eq_getElem hilen
    have hleni : (g.cells.get ⟨i, hilen⟩).length = g.width := hWF.2 _ (List.getElem_mem hilen)
    by_cases hre : g.lastColAllFree = true
    · rw [if_pos hre] at hc
      by_cases hjW : j < g.width
      · have hgdi : g.cells.getD i [] = g.cells.get ⟨i, hilen⟩ :=
          List.getD_eq_getElem g.cells [] hilen
        have hvt : g.cellVal i (g.width - 1) = some true := by
          rw [cellVal_true_iff, hgdi]
          exact (lastColAllFree_iff g).mp hre _ (List.getElem_mem hilen)
        rw [show j = g.width - 1 by omega, hvt] at hocc
        cases hocc
      · rw [cellVal_def, hrowi] at hocc
        simp only [Option.some_bind] at hocc
        rw [List.getElem?_eq_none (by omega)] at hocc
        cases hocc
    · rw [if_neg hre] at hc
      rw [cellVal_def, hrowi] at hocc
      simp only [Option.some_bind] at hocc
      rw [List.getElem?_eq_none (by omega)] at hocc
      cases hocc

/-- Every cell of the returned rectangle is occupied right after the call,
provided RowWise calls span one row. -/
theorem step_rect_occupied {g : RibbonGridLayoutManager} {h w : Nat} {m : RibbonSpaceFindMode}
    {r c : Nat} {g' : RibbonGridLayoutManager} (hInv : g.Inv)
    (hm : m = .RowWise → h = 1)
    (hreq : g.request_cells h w m = some ((r, c), g')) :
    ∀ i j, inRect (r, c) h w i j → g'.cellVal i j = some false := by
  obtain ⟨hWF, hrowsPos, hwPos, htail⟩ := hInv
  obtain ⟨hh, hbr⟩ := request_cells_cases hreq
  intro i j hij
  obtain ⟨hri, hir, hcj, hjc⟩ := hij
  rcases hbr with ⟨-, hfind, rfl⟩ | ⟨hmEq, hfind, hplace⟩ | ⟨hover, hgrow⟩
  · obtain ⟨hrb, hcb, hfree, -⟩ := findCW_spec hfind
    apply cellVal_markRect_false ⟨hri, hir, hcj, hjc⟩
    refine ⟨true, ?_⟩
    have hval := rectAllFree_cellVal_g hfree (i - r) (j - c) (by omega) (by omega)
    rw [show r + (i - r) = i by omega, show c + (j - c) = j by omega] at hval
    exact hval
  · have h1 : h = 1 := hm hmEq
    subst h1
    rw [rowWisePlace_eq] at hplace
    injection hplace with h1 h2
    injection h1 with hr hc
    subst h2
    obtain ⟨hcw, htf, -⟩ := findRW_spec hfind
    have hi0 : i = 0 := by omega
    subst hi0
    by_cases hb : g.width - c < w
    · rw [if_pos hb]
      have hWF1 : WF ⟨g.rows, appendCols g.cells (w - (g.width - c))⟩ :=
        WF_appendCols hWF hrowsPos _
      have hw1 : width ⟨g.rows, appendCols g.cells (w - (g.width - c))⟩ =
          g.width + (w - (g.width - c)) :=
        width_appendCols g.rows _ (by rw [hWF.1]; omega)
      have hhead : ((appendCols g.cells (w - (g.width - c))).headD []).length =
          g.width + (w - (g.width - c)) := by
        rw [show ((appendCols g.cells (w - (g.width - c))).headD []).length =
          width ⟨g.rows, appendCols g.cells (w - (g.width - c))⟩ from rfl, hw1]
      rw [hhead]
      apply cellVal_markRect_false
      · exact ⟨by omega, by omega, hcj, by omega⟩
      · apply cellVal_isSome hWF1
        · show 0 < (appendCols g.cells (w - (g.width - c))).length
          rw [appendCols_length, hWF.1]
          omega
        · rw [hw1]
          omega
    · rw [if_neg hb]
      rw [show ((g.cells.headD []).length) = g.width from rfl]
      apply cellVal_markRect_false
      · exact ⟨by omega, by omega, hcj, by omega⟩
      · apply cellVal_isSome hWF
        · rw [hWF.1]
          omega
        · omega
  · rw [growCells_eq] at hgrow
    injection hgrow with h1 h2
    injection h1 with hr hc
    subst h2
    by_cases hre : g.lastColAllFree = true
    · rw [if_pos hre] at hc
      rw [if_pos hre, if_pos hre]
      have hWF1 : WF ⟨g.rows, appendCols g.cells (w - 1)⟩ :=
        WF_appendCols hWF hrowsPos _
      have hw1 : width ⟨g.rows, appendCols g.cells (w - 1)⟩ = g.width + (w - 1) :=
        width_appendCols g.rows _ (by rw [hWF.1]; omega)
      apply cellVal_markRect_false
      · exact ⟨by omega, by omega, by omega, by omega⟩
      · apply cellVal_isSome hWF1
        · rw [appendCols_length, hWF.1]
          omega
        · rw [hw1]
          omega
    · rw [if_neg hre] at hc
      rw [if_neg hre, if_neg hre]
      have hWF1 : WF ⟨g.rows, appendCols g.cells w⟩ :=
        WF_appendCols hWF hrowsPos _
      have hw1 : width ⟨g.rows, appendCols g.cells w⟩ = g.width + w :=
        width_appendCols g.rows _ (by rw [hWF.1]; omega)
      apply cellVal_markRect_false
      · exact ⟨by omega, by omega, by omega, by omega⟩
      · apply cellVal_isSome hWF1
        · rw [appendCols_length, hWF.1]
          omega
        · rw [hw1]
          omega

end RibbonGridLayoutManager

namespace RibbonGridLayoutManager

/-- The reachability invariant is preserved by every successful valid call
(any mode, any `rowSpan ∈ [1, rows]`, any `colSpan ≥ 1`). -/
theorem step_Inv {g : RibbonGridLayoutManager} {h w : Nat} {m : RibbonSpaceFindMode}
    {r c : Nat} {g' : RibbonGridLayoutManager} (hInv : g.Inv) (hh : 1 ≤ h) (hw : 1 ≤ w)
    (hreq : g.request_cells h w m = some ((r, c), g')) : g'.Inv := by
  obtain ⟨hWF, hrowsPos, hwPos, htail⟩ := hInv
  obtain ⟨hWF', hrows', hwle⟩ := request_cells_WF hWF hrowsPos hreq
  refine ⟨hWF', by omega, by omega, Or.inl ?_⟩
  obtain ⟨hh2, hbr⟩ := request_cells_cases hreq
  rcases hbr with ⟨hmEq, hfind, rfl⟩ | ⟨hmEq, hfind, hplace⟩ | ⟨hover, hgrow⟩
  · -- ColumnWise in-grid placement: the width is unchanged
    have hweq : width ⟨g.rows, markRect r h c w 0 g.cells⟩ = g.width := by
      rw [width_markRect]
    rw [hweq]
    rcases htail with hocc | hinitlike
    · exact request_cells_mono hreq 0 (g.width - 1) hocc
    · -- untouched initial grid: the scan places at (0, 0)
      have hW1 : g.width = 1 := width_of_replicate hrowsPos hinitlike
      obtain ⟨hrb, hcb, hfree, hmin⟩ := findCW_spec hfind
      have hc0 : c = 0 := by omega
      have hw1 : w = 1 := by omega
      have hr0 : r = 0 := by
        by_contra hrne
        have hfree00 : rectAllFree g.cells 0 0 h 1 = true :=
          rectAllFree_replicate hinitlike hh2
        have hfalse := hmin 0 0 (by rw [hWF.1]; omega) (by omega)
          (Or.inl (by omega))
        rw [hw1] at hfalse
        rw [hfalse] at hfree00
        cases hfree00
      have hocc00 := step_rect_occupied
        ⟨hWF, hrowsPos, hwPos, Or.inr hinitlike⟩
        (fun hrw => by rw [hmEq] at hrw; cases hrw) hreq 0 0
        ⟨by omega, by omega, by omega, by omega⟩
      rw [hW1]
      exact hocc00
  · -- RowWise in-loop placement: the tail of row 0 is marked to the edge
    rw [rowWisePlace_eq] at hplace
    injection hplace with h1 h2
    injection h1 with hr hc
    subst h2
    obtain ⟨hcw, htf, -⟩ := findRW_spec hfind
    by_cases hb : g.width - c < w
    · rw [if_pos hb]
      have hWF1 : WF ⟨g.rows, appendCols g.cells (w - (g.width - c))⟩ :=
        WF_appendCols hWF hrowsPos _
      have hw1 : width ⟨g.rows, appendCols g.cells (w - (g.width - c))⟩ =
          g.width + (w - (g.width - c)) :=
        width_appendCols g.rows _ (by rw [hWF.1]; omega)
      have hhead : ((appendCols g.cells (w - (g.width - c))).headD []).length =
          g.width + (w - (g.width - c)) := by
        rw [show ((appendCols g.cells (w - (g.width - c))).headD []).length =
          width ⟨g.rows, appendCols g.cells (w - (g.width - c))⟩ from rfl, hw1]
      rw [hhead]
      have hweq : width (⟨g.rows, markRect 0 1 c (g.width + (w - (g.width - c)) - c) 0
          (appendCols g.cells (w - (g.width - c)))⟩ : RibbonGridLayoutManager) =
          g.width + (w - (g.width - c)) := by
        rw [width_markRect, hw1]
      rw [hweq]
      apply cellVal_markRect_false
      · exact ⟨by omega, by omega, by omega, by omega⟩
      · apply cellVal_isSome hWF1
        · rw [appendCols_length, hWF.1]
          omega
        · rw [hw1]
          omega
    · rw [if_neg hb]
      rw [show ((g.cells.headD []).length) = g.width from rfl]
      have hweq : width (⟨g.rows, markRect 0 1 c (g.width - c) 0 g.cells⟩ :
          RibbonGridLayoutManager) = g.width := by
        rw [width_markRect]
      rw [hweq]
      apply cellVal_markRect_false
      · exact ⟨by omega, by omega, by omega, by omega⟩
      · apply cellVal_isSome hWF
        · rw [hWF.1]
          omega
        · omega
  · -- shared growth branch: the appended region's last column is marked
    rw [growCells_eq] at hgrow
    injection hgrow with h1 h2
    injection h1 with hr hc
    subst h2
    by_cases hre : g.lastColAllFree = true
    · rw [if_pos hre, if_pos hre]
      have hWF1 : WF ⟨g.rows, appendCols g.cells (w - 1)⟩ :=
        WF_appendCols hWF hrowsPos _
      have hw1 : width ⟨g.rows, appendCols g.cells (w - 1)⟩ = g.width + (w - 1) :=
        width_appendCols g.rows _ (by rw [hWF.1]; omega)
      have hweq : width (⟨g.rows, markRect 0 h (g.width - 1) w 0
          (appendCols g.cells (w - 1))⟩ : RibbonGridLayoutManager) =
          g.width + (w - 1) := by
        rw [width_markRect, hw1]
      rw [hweq]
      apply cellVal_markRect_false
      · exact ⟨by omega, by omega, by omega, by omega⟩
      · apply cellVal_isSome hWF1
        · rw [appendCols_length, hWF.1]
          omega
        · rw [hw1]
          omega
    · rw [if_neg hre, if_neg hre]
      have hWF1 : WF ⟨g.rows, appendCols g.cells w⟩ :=
        WF_appendCols hWF hrowsPos _
      have hw1 : width ⟨g.rows, appendCols g.cells w⟩ = g.width + w :=
        width_appendCols g.rows _ (by rw [hWF.1]; omega)
      have hweq : width (⟨g.rows, markRect 0 h g.width w 0
          (appendCols g.cells w)⟩ : RibbonGridLayoutManager) = g.width + w := by
        rw [width_markRect, hw1]
      rw [hweq]
      apply cellVal_markRect_false
      · exact ⟨by omega, by omega, by omega, by omega⟩
      · apply cellVal_isSome hWF1
        · rw [appendCols_length, hWF.1]
          omega
        · rw [hw1]
          omega

end RibbonGridLayoutManager

namespace RibbonGridLayoutManager

theorem runTrace_inv :
    ∀ (reqs : List Request) {g : RibbonGridLayoutManager}
      {out : List (Nat × Nat) × RibbonGridLayoutManager},
      g.Inv → (∀ req ∈ reqs, validReq g.rows req) → runTrace g reqs = some out →
      out.2.Inv ∧ out.2.rows = g.rows
  | [], g, out, hInv, _, hrun => by
    rw [runTrace] at hrun
    cases hrun
    exact ⟨hInv, rfl⟩
  | (h, w, m) :: rest, g, out, hInv, hvalid, hrun => by
    rw [runTrace] at hrun
    cases hreq : g.request_cells h w m with
    | none => rw [hreq] at hrun; cases hrun
    | some pg =>
      obtain ⟨⟨r, c⟩, g1⟩ := pg
      rw [hreq] at hrun
      have hrun2 : (match runTrace g1 rest with
        | none => none
        | some (ps, gf) => some ((r, c) :: ps, gf)) = some out := hrun
      cases hrest : runTrace g1 rest with
      | none => rw [hrest] at hrun2; cases hrun2
      | some psgf =>
        obtain ⟨ps, gf⟩ := psgf
        rw [hrest] at hrun2
        cases hrun2
        obtain ⟨hv1, -, -⟩ := hvalid (h, w, m) (List.mem_cons_self _ _)
        have hvrest : ∀ req ∈ rest, validReq g.rows req :=
          fun req hmem => hvalid req (List.mem_cons_of_mem _ hmem)
        obtain ⟨hv1', hv2', hv3'⟩ := hvalid (h, w, m) (List.mem_cons_self _ _)
        have hInv1 : g1.Inv := step_Inv hInv hv1' hv3' hreq
        have hrows1 : g1.rows = g.rows :=
          (request_cells_WF hInv.1 hInv.2.1 hreq).2.1
        have := runTrace_inv rest hInv1 (by rw [hrows1]; exact hvrest) hrest
        exact ⟨this.1, by rw [this.2, hrows1]⟩

theorem runTrace_mono :
    ∀ (reqs : List Request) {g : RibbonGridLayoutManager}
      {out : List (Nat × Nat) × RibbonGridLayoutManager},
      runTrace g reqs = some out →
      ∀ i j, g.cellVal i j = some false → out.2.cellVal i j = some false
  | [], g, out, hrun => by
    rw [runTrace] at hrun
    cases hrun
    exact fun i j hocc => hocc
  | (h, w, m) :: rest, g, out, hrun => by
    rw [runTrace] at hrun
    cases hreq : g.request_cells h w m with
    | none => rw [hreq] at hrun; cases hrun
    | some pg =>
      obtain ⟨⟨r, c⟩, g1⟩ := pg
      rw [hreq] at hrun
      have hrun2 : (match runTrace g1 rest with
        | none => none
        | some (ps, gf) => some ((r, c) :: ps, gf)) = some out := hrun
      cases hrest : runTrace g1 rest with
      | none => rw [hrest] at hrun2; cases hrun2
      | some psgf =>
        obtain ⟨ps, gf⟩ := psgf
        rw [hrest] at hrun2
        cases hrun2
        intro i j hocc
        exact runTrace_mono rest hrest i j (request_cells_mono hreq i j hocc)

/-- A cell that is already occupied is never inside any rectangle placed by
a later run of single-row-RowWise-valid requests. -/
theorem runTrace_avoid :
    ∀ (reqs : List Request) {g : RibbonGridLayoutManager}
      {out : List (Nat × Nat) × RibbonGridLayoutManager},
      g.Inv →
      (∀ req ∈ reqs, validReq g.rows req ∧ (req.2.2 = .RowWise → req.1 = 1)) →
      runTrace g reqs = some out →
      ∀ i j, g.cellVal i j = some false →
        ∀ pr ∈ out.1.zip reqs, ¬ inRect pr.1 pr.2.1 pr.2.2.1 i j
  | [], g, out, hInv, hvalid, hrun => by
    rw [runTrace] at hrun
    cases hrun
    intro i j hocc pr hpr
    cases hpr
  | (h, w, m) :: rest, g, out, hInv, hvalid, hrun => by
    rw [runTrace] at hrun
    cases hreq : g.request_cells h w m with
    | none => rw [hreq] at hrun; cases hrun
    | some pg =>
      obtain ⟨⟨r, c⟩, g1⟩ := pg
      rw [hreq] at hrun
      have hrun2 : (match runTrace g1 rest with
        | none => none
        | some (ps, gf) => some ((r, c) :: ps, gf)) = some out := hrun
      cases hrest : runTrace g1 rest with
      | none => rw [hrest] at hrun2; cases hrun2
      | some psgf =>
        obtain ⟨ps, gf⟩ := psgf
        rw [hrest] at hrun2
        cases hrun2
        intro i j hocc pr hpr
        obtain ⟨⟨hv1, hv2, hv3⟩, hv4⟩ := hvalid (h, w, m) (List.mem_cons_self _ _)
        rcases List.mem_cons.mp hpr with rfl | hmem
        · exact fun hin => step_rect_free hInv hv4 hreq i j hin hocc
        · have hInv1 : g1.Inv := step_Inv hInv hv1 hv3 hreq
          have hrows1 : g1.rows = g.rows := (request_cells_WF hInv.1 hInv.2.1 hreq).2.1
          have hvrest : ∀ req ∈ rest, validReq g1.rows req ∧
              (req.2.2 = .RowWise → req.1 = 1) := by
            rw [hrows1]
            exact fun req hm => hvalid req (List.mem_cons_of_mem _ hm)
          exact runTrace_avoid rest hInv1 hvrest hrest i j
            (request_cells_mono hreq i j hocc) pr hmem

/-- Pairwise disjointness of all placed rectangles along a run in which
every RowWise request spans a single row. -/
theorem runTrace_pairwise :
    ∀ (reqs : List Request) {g : RibbonGridLayoutManager}
      {out : List (Nat × Nat) × RibbonGridLayoutManager},
      g.Inv →
      (∀ req ∈ reqs, validReq g.rows req ∧ (req.2.2 = .RowWise → req.1 = 1)) →
      runTrace g reqs = some out →
      (out.1.zip reqs).Pairwise
        (fun a b => ∀ i j, inRect a.1 a.2.1 a.2.2.1 i j → inRect b.1 b.2.1 b.2.2.1 i j → False)
  | [], g, out, hInv, hvalid, hrun => by
    rw [runTrace] at hrun
    cases hrun
    exact List.Pairwise.nil
  | (h, w, m) :: rest, g, out, hInv, hvalid, hrun => by
    rw [runTrace] at hrun
    cases hreq : g.request_cells h w m with
    | none => rw [hreq] at hrun; cases hrun
    | some pg =>
      obtain ⟨⟨r, c⟩, g1⟩ := pg
      rw [hreq] at hrun
      have hrun2 : (match runTrace g1 rest with
        | none => none
        | some (ps, gf) => some ((r, c) :: ps, gf)) = some out := hrun
      cases hrest : runTrace g1 rest with
      | none => rw [hrest] at hrun2; cases hrun2
      | some psgf =>
        obtain ⟨ps, gf⟩ := psgf
        rw [hrest] at hrun2
        cases hrun2
        obtain ⟨⟨hv1, hv2, hv3⟩, hv4⟩ := hvalid (h, w, m) (List.mem_cons_self _ _)
        have hInv1 : g1.Inv := step_Inv hInv hv1 hv3 hreq
        have hrows1 : g1.rows = g.rows := (request_cells_WF hInv.1 hInv.2.1 hreq).2.1
        have hvrest : ∀ req ∈ rest, validReq g1.rows req ∧
            (req.2.2 = .RowWise → req.1 = 1) := by
          rw [hrows1]
          exact fun req hm => hvalid req (List.mem_cons_of_mem _ hm)
        refine List.Pairwise.cons ?_ (runTrace_pairwise rest hInv1 hvrest hrest)
        intro pr hpr i j hin1 hin2
        have hocc1 : g1.cellVal i j = some false :=
          step_rect_occupied hInv hv4 hreq i j hin1
        exact runTrace_avoid rest hInv1 hvrest hrest i j hocc1 pr hpr hin2

end RibbonGridLayoutManager

namespace RibbonGridLayoutManager

theorem request_cells_CW_found {g : RibbonGridLayoutManager} {h w r c : Nat}
    (hh : h ≤ g.rows) (hfind : g.findCW h w = some (r, c)) :
    g.request_cells h w .ColumnWise =
      some ((r, c), ⟨g.rows, markRect r h c w 0 g.cells⟩) := by
  rw [request_cells.eq_def, if_neg (by omega), hfind]

theorem request_cells_RW_found {g : RibbonGridLayoutManager} {h w c : Nat}
    (hh : h ≤ g.rows) (hfind : g.findRW = some c) :
    g.request_cells h w .RowWise = some (g.rowWisePlace w c) := by
  rw [request_cells.eq_def, if_neg (by omega), hfind]

theorem request_cells_overflow {g : RibbonGridLayoutManager} {h w : Nat}
    {m : RibbonSpaceFindMode} (hh : h ≤ g.rows) (hover : g.overflowed h w m) :
    g.request_cells h w m = some (g.growCells h w) := by
  cases m with
  | ColumnWise =>
    have hov : g.findCW h w = none := hover
    rw [request_cells.eq_def, if_neg (by omega), hov]
  | RowWise =>
    have hov : g.findRW = none := hover
    rw [request_cells.eq_def, if_neg (by omega), hov]

end RibbonGridLayoutManager

/-! ### Claim theorems -/

open RibbonGridLayoutManager

/-- C6: `request_cells` fails if and only if `rowSpan > rowCount`; no other
failure mode exists (every request with `rowSpan ≤ rowCount` returns a
placement), and a failing call returns no mutated grid — the raise happens
before any mutation, so the occupancy grid is exactly as before. -/
theorem C6_raises_iff (g : RibbonGridLayoutManager) (rowSpan colSpan : Nat)
    (mode : RibbonSpaceFindMode) :
    g.request_cells rowSpan colSpan mode = none ↔ g.rows < rowSpan := by
  rw [RibbonGridLayoutManager.request_cells.eq_def]
  by_cases hr : g.rows < rowSpan
  · rw [if_pos hr]
    simp [hr]
  · rw [if_neg hr]
    simp [hr]

/-- C10: `setMaximumRows` raises unconditionally — for every panel state,
including a freshly constructed panel, and every argument, the call returns
the error and never an updated panel (so the maximum row count is never
changed by it). -/
theorem C10_setMaximumRows_always_raises (p : RibbonPanel) (newMaxRows : Nat) :
    p.setMaximumRows newMaxRows = Except.error RibbonPanel.setMaximumRowsMessage := rfl

/-- C9: after any successful widget placement, calling `setMaximumRows`
fails with the configuration error and produces no updated panel, leaving
the panel's maximum row count unchanged. -/
theorem C9_setMaximumRows_after_placement (p p' : RibbonPanel) (rowSpan colSpan : Nat)
    (mode : RibbonSpaceFindMode) (pos : Nat × Nat)
    (hplace : p.addWidget rowSpan colSpan mode = some (pos, p')) (newMaxRows : Nat) :
    p'.setMaximumRows newMaxRows = Except.error RibbonPanel.setMaximumRowsMessage ∧
      ∀ q : RibbonPanel, p'.setMaximumRows newMaxRows ≠ Except.ok q :=
  ⟨rfl, fun _ h => Except.noConfusion h⟩

theorem C9_setMaximumRows_after_placement_witness :
    (RibbonPanel.create 6).addWidget 2 1 .ColumnWise =
      some ((0, 0), ⟨6, ⟨6, [[false], [false], [true], [true], [true], [true]]⟩⟩) ∧
    (⟨6, ⟨6, [[false], [false], [true], [true], [true], [true]]⟩⟩ :
        RibbonPanel).setMaximumRows 3 =
      Except.error RibbonPanel.setMaximumRowsMessage :=
  ⟨by decide,
    (C9_setMaximumRows_after_placement (RibbonPanel.create 6)
      ⟨6, ⟨6, [[false], [false], [true], [true], [true], [true]]⟩⟩ 2 1 .ColumnWise (0, 0)
      (by decide) 3).1⟩

/-- C8: a successful `request_cells` call never turns an occupied cell back
to free — reservations are permanent (the allocator has no deallocation
operation; `request_cells` is its only mutator). -/
theorem C8_permanent_reservations (g : RibbonGridLayoutManager) (rowSpan colSpan : Nat)
    (mode : RibbonSpaceFindMode) (pos : Nat × Nat) (g' : RibbonGridLayoutManager)
    (hreq : g.request_cells rowSpan colSpan mode = some (pos, g')) :
    ∀ i j, g.cellVal i j = some false → g'.cellVal i j = some false := by
  obtain ⟨r, c⟩ := pos
  exact RibbonGridLayoutManager.request_cells_mono hreq

theorem C8_permanent_reservations_witness :
    (⟨2, [[false], [true]]⟩ : RibbonGridLayoutManager).request_cells 1 1 .ColumnWise =
      some ((1, 0), ⟨2, [[false], [false]]⟩) ∧
    cellVal ⟨2, [[false], [true]]⟩ 0 0 = some false ∧
    cellVal ⟨2, [[false], [false]]⟩ 0 0 = some false :=
  ⟨by decide, by decide,
    C8_permanent_reservations ⟨2, [[false], [true]]⟩ 1 1 .ColumnWise (1, 0)
      ⟨2, [[false], [false]]⟩ (by decide) 0 0 (by decide)⟩

/-- C7: the grid is always rectangular with exactly `rowCount` rows; the
column count starts at 1 at construction and never decreases across any
successful `request_cells` call (a failing call returns no grid at all). -/
theorem C7_structural_invariant :
    (∀ rows : Nat, 0 < rows → (init rows).WF ∧ (init rows).width = 1) ∧
    (∀ (g : RibbonGridLayoutManager) (rowSpan colSpan : Nat) (mode : RibbonSpaceFindMode)
      (pos : Nat × Nat) (g' : RibbonGridLayoutManager), g.WF → 0 < g.rows →
      g.request_cells rowSpan colSpan mode = some (pos, g') →
      g'.WF ∧ g'.rows = g.rows ∧ g.width ≤ g'.width) := by
  constructor
  · exact fun rows h => ⟨WF_init rows, width_init h⟩
  · intro g rowSpan colSpan mode pos g' hWF hrows hreq
    obtain ⟨r, c⟩ := pos
    exact request_cells_WF hWF hrows hreq

theorem C7_structural_invariant_witness :
    (0 < 6 ∧ (init 6).WF ∧ (init 6).width = 1) ∧
    ((⟨6, [[false], [false], [true], [true], [true], [true]]⟩ :
        RibbonGridLayoutManager).WF ∧
      (⟨6, [[false], [false], [true], [true], [true], [true]]⟩ :
        RibbonGridLayoutManager).rows = (init 6).rows ∧
      (init 6).width ≤
        (⟨6, [[false], [false], [true], [true], [true], [true]]⟩ :
          RibbonGridLayoutManager).width) :=
  ⟨⟨by decide, C7_structural_invariant.1 6 (by decide)⟩,
    C7_structural_invariant.2 (init 6) 2 1 .ColumnWise (0, 0) _ (by decide) (by decide)
      (by decide)⟩

/-- C5: when a request overflows the grid and the rightmost existing column
is entirely free, exactly `colSpan - 1` new all-free columns are appended —
the free trailing column is reused as the first column of the placement,
whose top-left is `(0, width - 1)`. -/
theorem C5_growth_exactness (g : RibbonGridLayoutManager) (rowSpan colSpan : Nat)
    (mode : RibbonSpaceFindMode) (hWF : g.WF) (hrows : 0 < g.rows)
    (hspan : rowSpan ≤ g.rows) (hover : g.overflowed rowSpan colSpan mode)
    (hfree : g.lastColAllFree = true) :
    ∃ g', g.request_cells rowSpan colSpan mode = some ((0, g.width - 1), g') ∧
      g'.width = g.width + (colSpan - 1) := by
  rw [request_cells_overflow hspan hover, growCells_eq, if_pos hfree, if_pos hfree]
  refine ⟨_, rfl, ?_⟩
  rw [width_markRect]
  exact width_appendCols _ _ (by rw [hWF.1]; omega)

theorem C5_growth_exactness_witness :
    (init 2).WF ∧ (init 2).overflowed 1 3 .ColumnWise ∧
    (init 2).lastColAllFree = true ∧
    ∃ g', (init 2).request_cells 1 3 .ColumnWise =
        some ((0, (init 2).width - 1), g') ∧
      g'.width = (init 2).width + (3 - 1) :=
  ⟨by decide, by decide, by decide,
    C5_growth_exactness (init 2) 1 3 .ColumnWise (by decide) (by decide) (by decide)
      (by decide) (by decide)⟩

/-- C3: ColumnWise first-fit scan order — the scan ranges over rows
`[0, rowCount - rowSpan]` (outer) and columns `[0, currentColumns - colSpan]`
(inner), and the row-major-first position whose full `rowSpan × colSpan`
sub-rectangle is free is marked occupied and returned; concretely, four
successive `requestCells(2,1,ColumnWise)` calls on a fresh 6-row allocator
return `(0,0), (2,0), (4,0), (0,1)`. -/
theorem C3_columnwise_first_fit :
    (∀ (g : RibbonGridLayoutManager) (rowSpan colSpan r c : Nat), rowSpan ≤ g.rows →
      r + rowSpan ≤ g.cells.length → c + colSpan ≤ g.width →
      rectAllFree g.cells r c rowSpan colSpan = true →
      (∀ r' c', r' + rowSpan ≤ g.cells.length → c' + colSpan ≤ g.width →
        (r' < r ∨ (r' = r ∧ c' < c)) →
        rectAllFree g.cells r' c' rowSpan colSpan = false) →
      g.request_cells rowSpan colSpan .ColumnWise =
        some ((r, c), ⟨g.rows, markRect r rowSpan c colSpan 0 g.cells⟩)) ∧
    (runTrace (init 6) [(2, 1, .ColumnWise), (2, 1, .ColumnWise), (2, 1, .ColumnWise),
        (2, 1, .ColumnWise)]).map Prod.fst =
      some [(0, 0), (2, 0), (4, 0), (0, 1)] := by
  constructor
  · intro g rowSpan colSpan r c hspan hr hc hfree hmin
    exact request_cells_CW_found hspan (findCW_some_of hr hc hfree hmin)
  · decide

theorem C3_columnwise_first_fit_witness :
    2 ≤ (init 6).rows ∧
    rectAllFree (init 6).cells 0 0 2 1 = true ∧
    (init 6).request_cells 2 1 .ColumnWise =
      some ((0, 0), ⟨6, markRect 0 2 0 1 0 (init 6).cells⟩) :=
  ⟨by decide, by decide,
    C3_columnwise_first_fit.1 (init 6) 2 1 0 0 (by decide) (by decide) (by decide)
      (by decide) (by intro r' c' h1 h2 h3; exact absurd h3 (by omega))⟩

namespace RibbonGridLayoutManager

theorem c4_state1 (n : Nat) : (init (n + 1)).request_cells 1 2 .RowWise =
    some ((0, 0), ⟨n + 1, [false, false] :: List.replicate n [true, true]⟩) := by
  have hcells : (init (n + 1)).cells = [true] :: List.replicate n [true] := by
    rw [init, List.replicate_succ]
  have hwidth : (init (n + 1)).width = 1 := width_init (Nat.succ_pos n)
  have htf : (init (n + 1)).rowTailFree 0 = true := by
    rw [rowTailFree, hcells]
    rfl
  have hfind : (init (n + 1)).findRW = some 0 := by
    rw [findRW, hwidth, scanFrom_eq_some]
    refine ⟨0, by omega, ?_, by intro j hj; omega⟩
    rw [Nat.add_zero, if_pos htf]
  rw [request_cells_RW_found (show 1 ≤ (init (n + 1)).rows from Nat.succ_pos n) hfind,
    rowWisePlace_eq, hwidth]
  rw [if_pos (show (1 : Nat) - 0 < 2 by omega), hcells]
  rw [show (2 : Nat) - (1 - 0) = 1 from rfl]
  rw [show appendCols ([true] :: List.replicate n [true]) 1 =
      [true, true] :: List.replicate n [true, true] from by
    rw [appendCols, List.map_cons, List.map_replicate]
    rfl]
  rw [show (([true, true] :: List.replicate n [true, true]).headD []).length = 2 from rfl]
  rw [markRect, if_pos (by omega), markRect_of_ge 0 1 0 (2 - 0) 1 _ (by omega)]
  rw [show markRow 0 (2 - 0) 0 [true, true] = [false, false] from rfl]
  rfl

end RibbonGridLayoutManager

namespace RibbonGridLayoutManager

theorem rowTailFree_eq_false (g : RibbonGridLayoutManager) (c j : Nat) (hcj : c ≤ j)
    (hjl : j < (g.cells.getD 0 []).length) (hval : (g.cells.getD 0 [])[j]? = some false) :
    g.rowTailFree c = false := by
  by_cases h : g.rowTailFree c = true
  · have hv := (rowTailFree_iff g c).mp h j hcj hjl
    rw [hval] at hv
    cases hv
  · simpa using h

theorem c4_state2 (n : Nat) :
    (⟨n + 1, [false, false] :: List.replicate n [true, true]⟩ :
        RibbonGridLayoutManager).request_cells 1 2 .RowWise =
      some ((0, 2), ⟨n + 1, [false, false, false, false] ::
        List.replicate n [true, true, true, true]⟩) := by
  have hfind : findRW ⟨n + 1, [false, false] :: List.replicate n [true, true]⟩ = none := by
    rw [findRW,
      show width ⟨n + 1, [false, false] :: List.replicate n [true, true]⟩ = 2 from rfl,
      scanFrom_eq_none]
    intro k hk
    rw [Nat.zero_add]
    have hk2 : k = 0 ∨ k = 1 := by omega
    have hf0 := rowTailFree_eq_false
      ⟨n + 1, [false, false] :: List.replicate n [true, true]⟩ 0 0 (by omega)
      (Nat.zero_lt_succ 1) rfl
    have hf1 := rowTailFree_eq_false
      ⟨n + 1, [false, false] :: List.replicate n [true, true]⟩ 1 1 (by omega)
      (Nat.lt_succ_self 1) rfl
    rcases hk2 with rfl | rfl
    · rw [if_neg (by rw [hf0]; simp)]
    · rw [if_neg (by rw [hf1]; simp)]
  have hlast : lastColAllFree ⟨n + 1, [false, false] :: List.replicate n [true, true]⟩
      = false := rfl
  rw [request_cells_overflow
    (show 1 ≤ (⟨n + 1, [false, false] :: List.replicate n [true, true]⟩ :
      RibbonGridLayoutManager).rows from Nat.succ_pos n)
    (show (⟨n + 1, [false, false] :: List.replicate n [true, true]⟩ :
      RibbonGridLayoutManager).overflowed 1 2 .RowWise from hfind),
    growCells_eq, if_neg (by rw [hlast]; simp), if_neg (by rw [hlast]; simp)]
  rw [show width ⟨n + 1, [false, false] :: List.replicate n [true, true]⟩ = 2 from rfl]
  rw [show appendCols ([false, false] :: List.replicate n [true, true]) 2 =
      [false, false, true, true] :: List.replicate n [true, true, true, true] from by
    rw [appendCols, List.map_cons, List.map_replicate]
    rfl]
  rw [markRect, if_pos (by omega), markRect_of_ge 0 1 2 2 1 _ (by omega)]
  rw [show markRow 2 2 0 [false, false, true, true] = [false, false, false, false] from rfl]

theorem c4_state3 (n : Nat) :
    (⟨n + 1, [false, false, false, false] :: List.replicate n [true, true, true, true]⟩ :
        RibbonGridLayoutManager).request_cells 1 2 .RowWise =
      some ((0, 4), ⟨n + 1, [false, false, false, false, false, false] ::
        List.replicate n [true, true, true, true, true, true]⟩) := by
  have hfind : findRW ⟨n + 1, [false, false, false, false] ::
      List.replicate n [true, true, true, true]⟩ = none := by
    rw [findRW,
      show width ⟨n + 1, [false, false, false, false] ::
        List.replicate n [true, true, true, true]⟩ = 4 from rfl,
      scanFrom_eq_none]
    intro k hk
    rw [Nat.zero_add]
    have hk2 : k = 0 ∨ k = 1 ∨ k = 2 ∨ k = 3 := by omega
    have hf : ∀ k', k' ≤ 3 → rowTailFree ⟨n + 1, [false, false, false, false] ::
        List.replicate n [true, true, true, true]⟩ k' = false := by
      intro k' hk'
      exact rowTailFree_eq_false _ k' 3 (by omega) (Nat.lt_succ_self 3) rfl
    rcases hk2 with rfl | rfl | rfl | rfl
    · rw [if_neg (by rw [hf 0 (by omega)]; simp)]
    · rw [if_neg (by rw [hf 1 (by omega)]; simp)]
    · rw [if_neg (by rw [hf 2 (by omega)]; simp)]
    · rw [if_neg (by rw [hf 3 (by omega)]; simp)]
  have hlast : lastColAllFree ⟨n + 1, [false, false, false, false] ::
      List.replicate n [true, true, true, true]⟩ = false := rfl
  rw [request_cells_overflow
    (show 1 ≤ (⟨n + 1, [false, false, false, false] ::
      List.replicate n [true, true, true, true]⟩ :
      RibbonGridLayoutManager).rows from Nat.succ_pos n)
    (show (⟨n + 1, [false, false, false, false] ::
      List.replicate n [true, true, true, true]⟩ :
      RibbonGridLayoutManager).overflowed 1 2 .RowWise from hfind),
    growCells_eq, if_neg (by rw [hlast]; simp), if_neg (by rw [hlast]; simp)]
  rw [show width ⟨n + 1, [false, false, false, false] ::
    List.replicate n [true, true, true, true]⟩ = 4 from rfl]
  rw [show appendCols ([false, false, false, false] ::
      List.replicate n [true, true, true, true]) 2 =
      [false, false, false, false, true, true] ::
        List.replicate n [true, true, true, true, true, true] from by
    rw [appendCols, List.map_cons, List.map_replicate]
    rfl]
  rw [markRect, if_pos (by omega), markRect_of_ge 0 1 4 2 1 _ (by omega)]
  rw [show markRow 4 2 0 [false, false, false, false, true, true] =
    [false, false, false, false, false, false] from rfl]

end RibbonGridLayoutManager

theorem runTrace_cons {g : RibbonGridLayoutManager} {h w : Nat} {m : RibbonSpaceFindMode}
    {r c : Nat} {g1 : RibbonGridLayoutManager}
    (hreq : g.request_cells h w m = some ((r, c), g1)) (rest : List Request) :
    runTrace g ((h, w, m) :: rest) =
      (runTrace g1 rest).map fun o => ((r, c) :: o.1, o.2) := by
  rw [runTrace, hreq]
  show (match runTrace g1 rest with
    | none => none
    | some (ps, gf) => some ((r, c) :: ps, gf)) =
      (runTrace g1 rest).map fun o => ((r, c) :: o.1, o.2)
  cases runTrace g1 rest with
  | none => rfl
  | some psgf =>
    obtain ⟨ps, gf⟩ := psgf
    rfl

/-- C4: on a freshly created allocator (any positive row count), three
successive `requestCells(1,2,RowWise)` calls return `(0,0)`, `(0,2)`,
`(0,4)`, and the grid's column count grows from 1 through 2 and 4 to 6. -/
theorem C4_rowwise_packing (n : Nat) :
    (init (n + 1)).width = 1 ∧
    (runTrace (init (n + 1)) [(1, 2, .RowWise)]).map (fun o => (o.1, o.2.width)) =
      some ([(0, 0)], 2) ∧
    (runTrace (init (n + 1)) [(1, 2, .RowWise), (1, 2, .RowWise)]).map
      (fun o => (o.1, o.2.width)) = some ([(0, 0), (0, 2)], 4) ∧
    (runTrace (init (n + 1))
        [(1, 2, .RowWise), (1, 2, .RowWise), (1, 2, .RowWise)]).map
      (fun o => (o.1, o.2.width)) = some ([(0, 0), (0, 2), (0, 4)], 6) := by
  refine ⟨width_init (Nat.succ_pos n), ?_, ?_, ?_⟩
  · rw [runTrace_cons (c4_state1 n)]
    rfl
  · rw [runTrace_cons (c4_state1 n), runTrace_cons (c4_state2 n)]
    rfl
  · rw [runTrace_cons (c4_state1 n), runTrace_cons (c4_state2 n),
      runTrace_cons (c4_state3 n)]
    rfl

namespace RibbonGridLayoutManager

theorem cellVal_replicate_rect (R W i j : Nat) :
    cellVal ⟨R, List.replicate R (List.replicate W true)⟩ i j =
      if i < R ∧ j < W then some true else none := by
  rw [cellVal_mk, List.getElem?_replicate]
  by_cases hi : i < R
  · rw [if_pos hi]
    simp only [Option.some_bind]
    rw [List.getElem?_replicate]
    by_cases hj : j < W
    · rw [if_pos hj, if_pos ⟨hi, hj⟩]
    · rw [if_neg hj, if_neg (by omega)]
  · rw [if_neg hi, if_neg (by omega)]
    rfl

/-- Marking the single rectangle `(0,0)–(1,w)` on a fresh all-free grid that
has been grown to width `w` occupies exactly the cells `(0,0) … (0,w-1)`. -/
theorem exact_init_case (R w : Nat) (hR : 0 < R) (hw : 1 ≤ w) : ∀ i j,
    cellVal ⟨R, markRect 0 1 0 w 0 (List.replicate R (List.replicate w true))⟩ i j =
        some false ↔
      (cellVal ⟨R, List.replicate R [true]⟩ i j = some false ∨
        (i = 0 ∧ 0 ≤ j ∧ j < 0 + w)) := by
  intro i j
  rw [cellVal_markRect, cellVal_replicate_rect, cellVal_replicate]
  by_cases h1 : i < R ∧ j < w
  · rw [if_pos h1]
    simp only [Option.map_some']
    by_cases h2 : i = 0
    · subst h2
      rw [if_pos ⟨by omega, by omega, by omega, by omega⟩]
      constructor
      · intro _
        exact Or.inr ⟨rfl, by omega, by omega⟩
      · intro _
        rfl
    · rw [if_neg (by intro hcond; exact h2 (by omega))]
      constructor
      · intro hfalse
        cases hfalse
      · rintro (hleft | hright)
        · by_cases h3 : i < R ∧ j = 0
          · rw [if_pos h3] at hleft
            cases hleft
          · rw [if_neg h3] at hleft
            cases hleft
        · exact absurd hright.1 h2
  · rw [if_neg h1]
    simp only [Option.map_none']
    constructor
    · intro hfalse
      cases hfalse
    · rintro (hleft | hright)
      · by_cases h3 : i < R ∧ j = 0
        · rw [if_pos h3] at hleft
          cases hleft
        · rw [if_neg h3] at hleft
          cases hleft
      · exact absurd ⟨by omega, by omega⟩ h1

end RibbonGridLayoutManager

namespace RibbonGridLayoutManager

/-- A RowWise call with `rowSpan = 1` on any reachable allocator state marks
occupied exactly the cells `(0, c) … (0, c + colSpan - 1)` of the returned
column `c`, and no other cells. -/
theorem rowWise_exact {g : RibbonGridLayoutManager} {w : Nat} {res : Nat × Nat}
    {g' : RibbonGridLayoutManager} (hInv : g.Inv) (hw : 1 ≤ w)
    (hreq : g.request_cells 1 w .RowWise = some (res, g')) :
    res.1 = 0 ∧ ∀ i j, (g'.cellVal i j = some false ↔
      (g.cellVal i j = some false ∨ (i = 0 ∧ res.2 ≤ j ∧ j < res.2 + w))) := by
  obtain ⟨hWF, hrowsPos, hwPos, htail⟩ := hInv
  obtain ⟨res1, res2⟩ := res
  obtain ⟨hh, hbr⟩ := request_cells_cases hreq
  rcases hbr with ⟨hmEq, -, -⟩ | ⟨-, hfind, hplace⟩ | ⟨hover, hgrow⟩
  · cases hmEq
  · -- in-loop placement: only reachable on the untouched initial grid
    rw [rowWisePlace_eq] at hplace
    injection hplace with h1 h2
    injection h1 with hr hc
    obtain ⟨hcw, htf, -⟩ := findRW_spec hfind
    have hfree_last : g.cellVal 0 (g.width - 1) = some true := by
      obtain ⟨h0some, h0len⟩ := row0_some hWF hrowsPos
      have hval := (rowTailFree_iff g res2).mp htf (g.width - 1) (by omega) (by omega)
      rw [cellVal_def, h0some]
      simp only [Option.some_bind]
      exact hval
    have hrep : g.cells = List.replicate g.rows [true] := by
      rcases htail with hocc | hrep
      · rw [hfree_last] at hocc
        cases hocc
      · exact hrep
    have hW1 : g.width = 1 := width_of_replicate hrowsPos hrep
    have hc0 : res2 = 0 := by omega
    subst hc0
    subst h2
    refine ⟨hr.symm, ?_⟩
    intro i j
    have hcells1 : (if g.width - 0 < w then appendCols g.cells (w - (g.width - 0))
        else g.cells) = List.replicate g.rows (List.replicate w true) := by
      by_cases hb : g.width - 0 < w
      · rw [if_pos hb, hW1, hrep]
        rw [appendCols, List.map_replicate]
        congr 1
        rw [show w - (1 - 0) = w - 1 from rfl]
        rw [show ([true] : List Bool) ++ List.replicate (w - 1) true =
          List.replicate (w - 1 + 1) true from by rw [List.replicate_succ]; rfl]
        rw [show w - 1 + 1 = w by omega]
      · rw [if_neg hb, hrep]
        have hw1 : w = 1 := by omega
        subst hw1
        rfl
    have hhead : ((List.replicate g.rows (List.replicate w true)).headD []).length = w := by
      obtain ⟨n, hn⟩ : ∃ n, g.rows = n + 1 := ⟨g.rows - 1, by omega⟩
      rw [hn, List.replicate_succ]
      rw [show ((List.replicate w true :: List.replicate n (List.replicate w true)).headD
        []) = List.replicate w true from rfl]
      exact List.length_replicate w true
    have hold : g.cellVal i j = cellVal ⟨g.rows, List.replicate g.rows [true]⟩ i j := by
      rw [cellVal_def, cellVal_mk, hrep]
    rw [hcells1, hhead, show w - 0 = w from rfl, hold]
    exact exact_init_case g.rows w hrowsPos hw i j
  · -- fall-through growth: no column reuse is possible here
    have hovn : g.findRW = none := hover
    have hlast : g.lastColAllFree = false := by
      by_cases hl : g.lastColAllFree = true
      · exfalso
        obtain ⟨h0some, h0len⟩ := row0_some hWF hrowsPos
        have hmem : g.cells.getD 0 [] ∈ g.cells := List.getElem?_mem h0some
        have hgd := (lastColAllFree_iff g).mp hl _ hmem
        have htt : g.rowTailFree (g.width - 1) = true := by
          rw [rowTailFree_iff]
          intro j hj1 hj2
          rw [show j = g.width - 1 by omega]
          exact (getD_true_iff _ _).mp hgd
        have hff := findRW_none hovn (g.width - 1) (by omega)
        rw [htt] at hff
        cases hff
      · simpa using hl
    rw [growCells_eq, if_neg (by rw [hlast]; simp), if_neg (by rw [hlast]; simp)] at hgrow
    injection hgrow with h1 h2
    injection h1 with hr hc
    subst h2
    refine ⟨hr.symm, ?_⟩
    intro i j
    rw [show (res1, res2).2 = res2 from rfl, ← hc]
    by_cases hi : i < g.cells.length
    · have hrowi : g.cells[i]? = some (g.cells.get ⟨i, hi⟩) := List.getElem?_eq_getElem hi
      have hleni : (g.cells.get ⟨i, hi⟩).length = g.width := hWF.2 _ (List.getElem_mem hi)
      by_cases hj1 : j < g.width
      · rw [cellVal_markRect]
        have happ : cellVal ⟨g.rows, appendCols g.cells w⟩ i j =
            cellVal ⟨g.rows, g.cells⟩ i j :=
          cellVal_appendCols_of_lt g.rows hrowi (by omega) w
        rw [happ, show cellVal ⟨g.rows, g.cells⟩ i j = g.cellVal i j from rfl]
        cases hv : g.cellVal i j with
        | none =>
          simp only [Option.map_none']
          constructor
          · intro hcon
            cases hcon
          · rintro (hcon | ⟨h3, h4, h5⟩)
            · cases hcon
            · omega
        | some b =>
          simp only [Option.map_some']
          rw [if_neg (by intro hcond; omega)]
          constructor
          · exact fun hsome => Or.inl hsome
          · rintro (hsome | ⟨h3, h4, h5⟩)
            · exact hsome
            · omega
      · by_cases hj2 : j < g.width + w
        · have happ := cellVal_appendCols_of_ge g.rows hrowi
            (show (g.cells.get ⟨i, hi⟩).length ≤ j by omega)
            (show j < (g.cells.get ⟨i, hi⟩).length + w by omega)
          rw [cellVal_markRect, happ]
          simp only [Option.map_some']
          have hvnone : g.cellVal i j = none := by
            rw [cellVal_def, hrowi]
            simp only [Option.some_bind]
            exact List.getElem?_eq_none (by omega)
          rw [hvnone]
          by_cases hi0 : i = 0
          · subst hi0
            rw [if_pos ⟨by omega, by omega, by omega, by omega⟩]
            constructor
            · intro _
              exact Or.inr ⟨rfl, by omega, by omega⟩
            · intro _
              rfl
          · rw [if_neg (by intro hcond; exact hi0 (by omega))]
            constructor
            · intro hcon
              cases hcon
            · rintro (hcon | ⟨h3, h4, h5⟩)
              · cases hcon
              · exact absurd h3 hi0
        · have hnone1 : cellVal ⟨g.rows, appendCols g.cells w⟩ i j = none := by
            rw [cellVal_mk, appendCols_getElem?, hrowi]
            simp only [Option.map_some', Option.some_bind]
            exact List.getElem?_eq_none
              (by rw [List.length_append, List.length_replicate]; omega)
          rw [cellVal_markRect, hnone1]
          simp only [Option.map_none']
          have hvnone : g.cellVal i j = none := by
            rw [cellVal_def, hrowi]
            simp only [Option.some_bind]
            exact List.getElem?_eq_none (by omega)
          rw [hvnone]
          constructor
          · intro hcon
            cases hcon
          · rintro (hcon | ⟨h3, h4, h5⟩)
            · cases hcon
            · omega
    · have hrownone : g.cells[i]? = none := List.getElem?_eq_none (by omega)
      have hnone1 : cellVal ⟨g.rows, markRect 0 1 g.width w 0 (appendCols g.cells w)⟩ i j
          = none := by
        rw [cellVal_mk, markRect_getElem?, appendCols_getElem?, hrownone]
        rfl
      rw [hnone1]
      have hvnone : g.cellVal i j = none := by
        rw [cellVal_def, hrownone]
        rfl
      rw [hvnone]
      constructor
      · intro hcon
        cases hcon
      · rintro (hcon | ⟨h3, h4, h5⟩)
        · cases hcon
        · rw [hWF.1] at hi
          omega

end RibbonGridLayoutManager

/-- C1 counterexample: both requests of the trace are valid for a 2-row
allocator (`rowSpan ∈ [1,2]`, `colSpan ≥ 1`), both succeed, yet the reserved
rectangles — 2×1 at the returned `(0,0)` of the RowWise call, and 1×1 at the
returned `(1,0)` of the ColumnWise call — share the cell `(1,0)`: the
RowWise call only marked row 0 of its rectangle, so the claimed no-overlap
invariant is false as stated. -/
theorem C1_counterexample :
    (∀ req ∈ ([(2, 1, .RowWise), (1, 1, .ColumnWise)] : List Request), validReq 2 req) ∧
    (runTrace (init 2) [(2, 1, .RowWise), (1, 1, .ColumnWise)]).map Prod.fst =
      some [(0, 0), (1, 0)] ∧
    inRect (0, 0) 2 1 1 0 ∧ inRect (1, 0) 1 1 1 0 := by
  refine ⟨by decide, by decide, by decide, by decide⟩

/-- C1 (amended): for every sequence of successful `request_cells` calls on
one allocator — each with `rowSpan ∈ [1, rowCount]` and `colSpan ≥ 1`, and
every RowWise call spanning a single row (`rowSpan = 1`) — the reserved
`rowSpan × colSpan` rectangles at the returned top-left positions are
pairwise disjoint across distinct calls. -/
theorem C1_no_overlap_amended (rows : Nat) (reqs : List Request)
    (out : List (Nat × Nat) × RibbonGridLayoutManager) (hrows : 0 < rows)
    (hvalid : ∀ req ∈ reqs, validReq rows req ∧ (req.2.2 = .RowWise → req.1 = 1))
    (hrun : runTrace (init rows) reqs = some out) :
    (out.1.zip reqs).Pairwise
      (fun a b => ∀ i j, inRect a.1 a.2.1 a.2.2.1 i j →
        inRect b.1 b.2.1 b.2.2.1 i j → False) :=
  runTrace_pairwise reqs (Inv_init hrows) hvalid hrun

theorem C1_no_overlap_amended_witness :
    (0 < 2 ∧ ∀ req ∈ ([(1, 2, .RowWise), (2, 1, .ColumnWise)] : List Request),
      validReq 2 req ∧ (req.2.2 = .RowWise → req.1 = 1)) ∧
    runTrace (init 2) [(1, 2, .RowWise), (2, 1, .ColumnWise)] =
      some ([(0, 0), (0, 2)], ⟨2, [[false, false, false], [true, true, false]]⟩) ∧
    (([(0, 0), (0, 2)] : List (Nat × Nat)).zip
        ([(1, 2, .RowWise), (2, 1, .ColumnWise)] : List Request)).Pairwise
      (fun a b => ∀ i j, inRect a.1 a.2.1 a.2.2.1 i j →
        inRect b.1 b.2.1 b.2.2.1 i j → False) :=
  ⟨⟨by decide, by decide⟩, by decide,
    C1_no_overlap_amended 2 [(1, 2, .RowWise), (2, 1, .ColumnWise)]
      ([(0, 0), (0, 2)], ⟨2, [[false, false, false], [true, true, false]]⟩)
      (by decide) (by decide) (by decide)⟩

/-- C2 counterexample: on the reachable 2-row state left by a first
`RowWise(1,1)` call, a `RowWise(2,1)` call (rowSpan 2 ∈ [1, rowCount])
returns column 1 but also occupies cell `(1,1)` — a row other than 0 — so
the claim is false as stated for `rowSpan > 1`. -/
theorem C2_counterexample :
    runTrace (init 2) [(1, 1, .RowWise)] = some ([(0, 0)], ⟨2, [[false], [true]]⟩) ∧
    (⟨2, [[false], [true]]⟩ : RibbonGridLayoutManager).request_cells 2 1 .RowWise =
      some ((0, 1), ⟨2, [[false, false], [true, false]]⟩) ∧
    RibbonGridLayoutManager.cellVal ⟨2, [[false, false], [true, false]]⟩ 1 1 =
      some false ∧
    RibbonGridLayoutManager.cellVal ⟨2, [[false], [true]]⟩ 1 1 ≠ some false := by
  refine ⟨by decide, by decide, by decide, by decide⟩

/-- C2 (amended): a RowWise `request_cells` call with `rowSpan = 1` and
`colSpan ≥ 1`, on any allocator state reachable by valid requests, returns
row 0 and marks occupied exactly the cells `(0, c) … (0, c + colSpan - 1)`
for the returned column `c`, and no other cells. -/
theorem C2_rowwise_single_row_amended (rows : Nat) (reqs : List Request)
    (out : List (Nat × Nat) × RibbonGridLayoutManager) (w : Nat) (res : Nat × Nat)
    (g' : RibbonGridLayoutManager) (hrows : 0 < rows)
    (hvalid : ∀ req ∈ reqs, validReq rows req)
    (hrun : runTrace (init rows) reqs = some out) (hw : 1 ≤ w)
    (hreq : out.2.request_cells 1 w .RowWise = some (res, g')) :
    res.1 = 0 ∧ ∀ i j, (g'.cellVal i j = some false ↔
      (out.2.cellVal i j = some false ∨ (i = 0 ∧ res.2 ≤ j ∧ j < res.2 + w))) :=
  rowWise_exact (runTrace_inv reqs (Inv_init hrows) hvalid hrun).1 hw hreq

theorem C2_rowwise_single_row_amended_witness :
    (0 < 2 ∧ (∀ req ∈ ([(1, 1, .RowWise)] : List Request), validReq 2 req) ∧
      runTrace (init 2) [(1, 1, .RowWise)] =
        some ([(0, 0)], ⟨2, [[false], [true]]⟩) ∧
      (⟨2, [[false], [true]]⟩ : RibbonGridLayoutManager).request_cells 1 1 .RowWise =
        some ((0, 1), ⟨2, [[false, false], [true, true]]⟩)) ∧
    ((0, 1).1 = 0 ∧ ∀ i j,
      (RibbonGridLayoutManager.cellVal ⟨2, [[false, false], [true, true]]⟩ i j =
          some false ↔
        (RibbonGridLayoutManager.cellVal ⟨2, [[false], [true]]⟩ i j = some false ∨
          (i = 0 ∧ 1 ≤ j ∧ j < 1 + 1)))) :=
  ⟨⟨by decide, by decide, by decide, by decide⟩,
    C2_rowwise_single_row_amended 2 [(1, 1, .RowWise)]
      ([(0, 0)], ⟨2, [[false], [true]]⟩) 1 (0, 1)
      ⟨2, [[false, false], [true, true]]⟩ (by decide) (by decide) (by decide)
      (by decide) (by decide)⟩
